import Mathlib

/-!
Verification development for the `regs-insight-local` document-management
backend (`server.js`).  The JavaScript source is shallowly embedded: every
HTTP handler becomes a pure Lean function from an explicit server state and
request data to an HTTP response (status code plus JSON-shaped body) and a
new state.  MySQL behaviour relevant to the handlers (the `utf8mb4_unicode_ci`
collation making string comparison case-insensitive, `LIKE` pattern matching
with `%`/`_` wildcards and backslash escape, `ORDER BY ... DESC`, `LIMIT 200`,
`LEFT JOIN`) is modelled explicitly.  `bcrypt` and `jsonwebtoken` are
modelled as deterministic pure functions that keep their contract: a hash
verifies only against its password, a token verifies only under the secret
that signed it and only before its expiry, and the signed `{id, email}`
payload round-trips.
-/

namespace RegsInsight

/-! ## Decimal strings (model of JavaScript `String(number)` for integer ids) -/

/-- The decimal digit character for `d` (`d < 10`; other inputs clamp to `'0'`). -/
def digitChar : Nat → Char
  | 9 => '9' | 8 => '8' | 7 => '7' | 6 => '6' | 5 => '5'
  | 4 => '4' | 3 => '3' | 2 => '2' | 1 => '1' | _ => '0'

/-- Inverse of `digitChar`: `none` on anything that is not a decimal digit. -/
def charToDigit : Char → Option Nat
  | '9' => some 9 | '8' => some 8 | '7' => some 7 | '6' => some 6 | '5' => some 5
  | '4' => some 4 | '3' => some 3 | '2' => some 2 | '1' => some 1 | '0' => some 0
  | _ => none

/-- Most-significant-first decimal digits of `n`; `fuel` bounds the recursion. -/
def natToDigitsAux : Nat → Nat → List Char
  | 0, _ => []
  | Nat.succ fuel, n =>
    if n < 10 then [digitChar n]
    else natToDigitsAux fuel (n / 10) ++ [digitChar (n % 10)]

/-- Canonical decimal representation of a natural number, as produced by
JavaScript `String(n)` for non-negative integers. -/
def natToStr (n : Nat) : String := ⟨natToDigitsAux (n + 1) n⟩

/-- Parse decimal digits with an accumulator; fails on any non-digit. -/
def parseAux : Nat → List Char → Option Nat
  | acc, [] => some acc
  | acc, c :: cs =>
    match charToDigit c with
    | some d => parseAux (10 * acc + d) cs
    | none => none

/-- Parse a non-empty, all-digit character list as a natural number. -/
def digitsToNat : List Char → Option Nat
  | [] => none
  | c :: cs => parseAux 0 (c :: cs)

theorem charToDigit_digitChar_isSome (d : Nat) : (charToDigit (digitChar d)).isSome := by
  match d with
  | 0 => decide | 1 => decide | 2 => decide | 3 => decide | 4 => decide
  | 5 => decide | 6 => decide | 7 => decide | 8 => decide | 9 => decide
  | n + 10 => rfl

theorem charToDigit_digitChar (d : Nat) (h : d < 10) :
    charToDigit (digitChar d) = some d := by
  match d with
  | 0 => decide | 1 => decide | 2 => decide | 3 => decide | 4 => decide
  | 5 => decide | 6 => decide | 7 => decide | 8 => decide | 9 => decide
  | n + 10 => omega

theorem natToDigitsAux_all_digits {fuel n : Nat} {c : Char}
    (hc : c ∈ natToDigitsAux fuel n) : (charToDigit c).isSome := by
  induction fuel generalizing n with
  | zero => simp [natToDigitsAux] at hc
  | succ fuel ih =>
    unfold natToDigitsAux at hc
    by_cases h : n < 10
    · simp [h] at hc
      subst hc
      exact charToDigit_digitChar_isSome n
    · simp [h] at hc
      rcases hc with hc | hc
      · exact ih hc
      · subst hc
        exact charToDigit_digitChar_isSome (n % 10)

theorem natToDigitsAux_ne_nil (fuel n : Nat) (h : n < fuel) :
    natToDigitsAux fuel n ≠ [] := by
  cases fuel with
  | zero => omega
  | succ fuel =>
    unfold natToDigitsAux
    by_cases h10 : n < 10 <;> simp [h10]

theorem parseAux_append (acc : Nat) (xs ys : List Char) :
    parseAux acc (xs ++ ys) =
      match parseAux acc xs with
      | some m => parseAux m ys
      | none => none := by
  induction xs generalizing acc with
  | nil => simp [parseAux]
  | cons c cs ih =>
    simp only [List.cons_append, parseAux]
    cases charToDigit c with
    | none => rfl
    | some d => exact ih (10 * acc + d)

theorem parseAux_natToDigitsAux (fuel : Nat) :
    ∀ n acc, n < fuel →
      parseAux acc (natToDigitsAux fuel n) =
        some (acc * 10 ^ (natToDigitsAux fuel n).length + n) := by
  induction fuel with
  | zero => intro n acc h; omega
  | succ fuel ih =>
    intro n acc h
    unfold natToDigitsAux
    by_cases h10 : n < 10
    · simp only [h10, if_true, parseAux, charToDigit_digitChar n h10]
      simp only [List.length_singleton, pow_one]
      congr 1
      omega
    · simp only [h10, if_false, parseAux_append]
      have hdiv : n / 10 < fuel := by omega
      rw [ih (n / 10) acc hdiv]
      simp only [parseAux, charToDigit_digitChar (n % 10) (Nat.mod_lt n (by omega))]
      simp only [parseAux, List.length_append, List.length_cons, List.length_nil]
      congr 1
      have := Nat.div_add_mod n 10
      ring_nf
      omega

theorem digitsToNat_natToStr (n : Nat) : digitsToNat (natToStr n).data = some n := by
  have hne := natToDigitsAux_ne_nil (n + 1) n (by omega)
  have hp := parseAux_natToDigitsAux (n + 1) n 0 (by omega)
  simp only [natToStr]
  cases hds : natToDigitsAux (n + 1) n with
  | nil => exact absurd hds hne
  | cons c cs =>
    rw [hds] at hp
    simpa [digitsToNat, Nat.zero_mul] using hp

/-- JavaScript `String(n)` is injective on natural numbers. -/
theorem natToStr_injective {m n : Nat} (h : natToStr m = natToStr n) : m = n := by
  have hm := digitsToNat_natToStr m
  have hn := digitsToNat_natToStr n
  rw [h] at hm
  rw [hm] at hn
  exact Option.some.inj hn

/-- No decimal representation of a natural number is the string `"null"`. -/
theorem natToStr_ne_null (n : Nat) : natToStr n ≠ "null" := by
  intro h
  have hdata : natToDigitsAux (n + 1) n = ['n', 'u', 'l', 'l'] :=
    congrArg String.data h
  have hmem : 'n' ∈ natToDigitsAux (n + 1) n := by rw [hdata]; simp
  have := natToDigitsAux_all_digits hmem
  simp [charToDigit] at this

/-! ## Model of `bcrypt`

`bcrypt.hash(password, 10)` / `bcrypt.compare(password, hash)` are modelled as
a deterministic tagged encoding: a hash verifies exactly against the password
it was produced from. -/

/-- Model of `bcrypt.hash(password, 10)`. -/
def bcryptHash (password : String) : String := "$2b$10$" ++ password

/-- Model of `bcrypt.compare(password, hash)`. -/
def bcryptCompare (password hash : String) : Bool := hash = bcryptHash password

/-! ## Model of `jsonwebtoken`

`jwt.sign({id, email}, secret, {expiresIn: "12h"})` and
`jwt.verify(token, secret)` are modelled by a concrete string encoding
`<id>|<exp>|<secret>|<encoded email>` keeping the library's contract:
verification succeeds only with the signing secret and strictly before the
expiry timestamp (`iat + 12*3600` seconds), and returns the signed payload.
The email is encoded as dot-separated decimal codepoints so that – like a
real base64url JWT – the token never contains spaces, whatever the email. -/

/-- Identity claim carried by a session token: the JS payload `{id, email}`. -/
structure Claims where
  id : Nat
  email : String
deriving DecidableEq, Repr

/-- Encode a character list as dot-separated decimal codepoints. -/
def encodeChars : List Char → List Char
  | [] => []
  | [c] => natToDigitsAux (c.toNat + 1) c.toNat
  | c :: c' :: cs => natToDigitsAux (c.toNat + 1) c.toNat ++ '.' :: encodeChars (c' :: cs)

/-- Decode dot-separated decimal codepoints (accumulating current digits reversed). -/
def decodeAux : List Char → List Char → Option (List Char)
  | cur, [] => (digitsToNat cur.reverse).map (fun n => [Char.ofNat n])
  | cur, c :: cs =>
    if c = '.' then
      match digitsToNat cur.reverse, decodeAux [] cs with
      | some n, some rest => some (Char.ofNat n :: rest)
      | _, _ => none
    else decodeAux (c :: cur) cs

/-- Decode an encoded email (empty list decodes to the empty email). -/
def decodeChars : List Char → Option (List Char)
  | [] => some []
  | c :: cs => decodeAux [] (c :: cs)

/-- Split a character list at its first `'|'`; `none` when there is no bar. -/
def splitBar : List Char → Option (List Char × List Char)
  | [] => none
  | c :: cs =>
    if c = '|' then some ([], cs)
    else
      match splitBar cs with
      | some (a, b) => some (c :: a, b)
      | none => none

/-- Model of `jwt.sign({id, email}, secret, {expiresIn: "12h"})` at issue
time `iat` (seconds): the expiry is `iat + 43200`. -/
def jwtSign (c : Claims) (secret : String) (iat : Nat) : String :=
  natToStr c.id ++ "|" ++ natToStr (iat + 43200) ++ "|" ++ secret ++ "|" ++
    (⟨encodeChars c.email.data⟩ : String)

/-- Model of `jwt.verify(token, secret)` at current time `now` (seconds):
yields the signed payload only when the token was built with `secret` and
`now` is strictly before the expiry timestamp. -/
def jwtVerify (token secret : String) (now : Nat) : Option Claims :=
  match splitBar token.data with
  | none => none
  | some (f1, r1) =>
    match splitBar r1 with
    | none => none
    | some (f2, r2) =>
      match splitBar r2 with
      | none => none
      | some (f3, r3) =>
        match digitsToNat f1, digitsToNat f2, decodeChars r3 with
        | some id, some exp, some emailCs =>
          if f3 = secret.data ∧ now < exp then some ⟨id, ⟨emailCs⟩⟩ else none
        | _, _, _ => none

/-- The process signing secret (`process.env.JWT_SECRET` fallback default). -/
def JWT_SECRET : String := "change_this_secret_in_env"

/-! ## Auth middleware

`authMiddleware` reads the `authorization` header, rejects a missing header,
splits it on the space character (JavaScript `header.split(" ")`), rejects
anything other than exactly two parts, and verifies the second part as a
token.  All failures are 401 responses sent before the protected handler. -/

/-- Split on the space character, preserving empty parts: the semantics of
JavaScript `s.split(" ")` (so `""` gives `[""]`, `"a  b"` gives `["a","","b"]`). -/
def splitSp : List Char → List (List Char)
  | [] => [[]]
  | c :: cs =>
    if c = ' ' then [] :: splitSp cs
    else
      match splitSp cs with
      | a :: rest => (c :: a) :: rest
      | [] => [[c]]

/-- Split on any whitespace character (used only to state the spec's
"whitespace-separated parts" reading of the header). -/
def splitWS : List Char → List (List Char)
  | [] => [[]]
  | c :: cs =>
    if c.isWhitespace then [] :: splitWS cs
    else
      match splitWS cs with
      | a :: rest => (c :: a) :: rest
      | [] => [[c]]

inductive AuthErr where
  | missing
  | badAuth
  | invalidToken
deriving DecidableEq, Repr

instance {ε α : Type} [DecidableEq ε] [DecidableEq α] : DecidableEq (Except ε α) :=
  fun x y =>
  match x, y with
  | .ok a, .ok b =>
    if h : a = b then .isTrue (by rw [h]) else .isFalse (fun hc => h (Except.ok.inj hc))
  | .error a, .error b =>
    if h : a = b then .isTrue (by rw [h]) else .isFalse (fun hc => h (Except.error.inj hc))
  | .ok _, .error _ => .isFalse (fun hc => Except.noConfusion hc)
  | .error _, .ok _ => .isFalse (fun hc => Except.noConfusion hc)

/-- The 401 JSON error message each auth failure is sent with. -/
def authErrMsg : AuthErr → String
  | .missing => "Missing auth"
  | .badAuth => "Bad auth"
  | .invalidToken => "Invalid token"

/-- Embedding of `authMiddleware` (server.js lines 116–129): the request's
`authorization` header (`none` when absent) against the secret at time `now`. -/
def authMiddleware (header : Option String) (secret : String) (now : Nat) :
    Except AuthErr Claims :=
  match header with
  | none => .error .missing
  | some h =>
    if h.data = [] then .error .missing
    else
      match splitSp h.data with
      | [_, tok] =>
        match jwtVerify ⟨tok⟩ secret now with
        | some c => .ok c
        | none => .error .invalidToken
      | _ => .error .badAuth

/-! ## Round-trip facts about the token model -/

theorem charToDigit_ne_special {c : Char} (h : (charToDigit c).isSome) :
    c ≠ '.' ∧ c ≠ '|' ∧ c ≠ ' ' := by
  refine ⟨?_, ?_, ?_⟩ <;> rintro rfl <;> exact absurd h (by decide)

theorem decodeAux_digits {ds : List Char} (hds : ∀ c ∈ ds, c ≠ '.') :
    ∀ cur rest, decodeAux cur (ds ++ rest) = decodeAux (ds.reverse ++ cur) rest := by
  induction ds with
  | nil => intro cur rest; simp
  | cons d ds ih =>
    intro cur rest
    have hd : d ≠ '.' := hds d (by simp)
    simp only [List.cons_append, decodeAux, if_neg hd, List.append_eq]
    rw [ih (fun c hc => hds c (by simp [hc])) (d :: cur) rest]
    simp

theorem encodeChars_ne_nil (c : Char) (cs : List Char) :
    encodeChars (c :: cs) ≠ [] := by
  cases cs with
  | nil => exact natToDigitsAux_ne_nil _ _ (by omega)
  | cons c' cs' =>
    simp only [encodeChars, ne_eq, List.append_eq_nil]
    intro ⟨h, _⟩
    exact natToDigitsAux_ne_nil _ _ (by omega) h

theorem decodeAux_encodeChars : ∀ cs : List Char, cs ≠ [] →
    decodeAux [] (encodeChars cs) = some cs := by
  intro cs
  induction cs with
  | nil => intro h; exact absurd rfl h
  | cons c cs ih =>
    intro _
    have hnd : ∀ x ∈ natToDigitsAux (c.toNat + 1) c.toNat, x ≠ '.' :=
      fun x hx => (charToDigit_ne_special (natToDigitsAux_all_digits hx)).1
    cases cs with
    | nil =>
      show decodeAux [] (natToDigitsAux (c.toNat + 1) c.toNat) = some [c]
      have h1 := decodeAux_digits hnd [] []
      rw [List.append_nil] at h1
      rw [h1]
      simp only [decodeAux, List.append_nil, List.reverse_reverse]
      rw [show natToDigitsAux (c.toNat + 1) c.toNat = (natToStr c.toNat).data from rfl,
        digitsToNat_natToStr]
      simp [Char.ofNat_toNat]
    | cons c' cs' =>
      show decodeAux []
          (natToDigitsAux (c.toNat + 1) c.toNat ++ '.' :: encodeChars (c' :: cs')) =
        some (c :: c' :: cs')
      rw [decodeAux_digits hnd [] ('.' :: encodeChars (c' :: cs'))]
      simp only [decodeAux, if_pos rfl, List.append_nil, List.reverse_reverse]
      rw [show natToDigitsAux (c.toNat + 1) c.toNat = (natToStr c.toNat).data from rfl,
        digitsToNat_natToStr, ih (by simp)]
      simp [Char.ofNat_toNat]

theorem decodeChars_encodeChars (cs : List Char) :
    decodeChars (encodeChars cs) = some cs := by
  cases cs with
  | nil => rfl
  | cons c cs' =>
    have h := decodeAux_encodeChars (c :: cs') (by simp)
    cases henc : encodeChars (c :: cs') with
    | nil => exact absurd henc (encodeChars_ne_nil c cs')
    | cons e es =>
      rw [henc] at h
      exact h

theorem encodeChars_good : ∀ cs : List Char, ∀ x ∈ encodeChars cs,
    (charToDigit x).isSome ∨ x = '.' := by
  intro cs
  induction cs with
  | nil => intro x hx; simp [encodeChars] at hx
  | cons c cs ih =>
    intro x hx
    cases cs with
    | nil =>
      exact Or.inl (natToDigitsAux_all_digits hx)
    | cons c' cs' =>
      simp only [encodeChars, List.mem_append, List.mem_cons] at hx
      rcases hx with hx | hx | hx
      · exact Or.inl (natToDigitsAux_all_digits hx)
      · exact Or.inr hx
      · exact ih x hx

theorem splitBar_append {xs : List Char} (h : '|' ∉ xs) (ys : List Char) :
    splitBar (xs ++ '|' :: ys) = some (xs, ys) := by
  induction xs with
  | nil => simp [splitBar]
  | cons c cs ih =>
    have hc : c ≠ '|' := fun hcc => h (by simp [hcc])
    simp only [List.cons_append, splitBar, if_neg hc, List.append_eq,
      ih (fun hm => h (List.mem_cons_of_mem _ hm))]

/-- The token string `jwtSign` builds, with the expiry exposed as a parameter
(all lemmas are proved over a symbolic expiry and instantiated at
`iat + 43200`). -/
def rawToken (cid : Nat) (cemail secret : String) (E : Nat) : String :=
  natToStr cid ++ "|" ++ natToStr E ++ "|" ++ secret ++ "|" ++
    (⟨encodeChars cemail.data⟩ : String)

theorem jwtSign_eq_rawToken (cid : Nat) (cemail secret : String) (iat : Nat) :
    jwtSign ⟨cid, cemail⟩ secret iat = rawToken cid cemail secret (iat + 43200) := rfl

theorem rawToken_data (cid : Nat) (cemail secret : String) (E : Nat) :
    (rawToken cid cemail secret E).data =
      (natToStr cid).data ++ '|' :: ((natToStr E).data ++ '|' ::
        (secret.data ++ '|' :: encodeChars cemail.data)) := by
  have hbarData : ("|" : String).data = ['|'] := rfl
  simp only [rawToken, String.data_append, hbarData, List.append_assoc,
    List.singleton_append, List.cons_append, List.append_eq, List.nil_append]

theorem natToStr_no_bar (n : Nat) : '|' ∉ (natToStr n).data := fun hm =>
  ((charToDigit_ne_special (natToDigitsAux_all_digits hm)).2.1) rfl

theorem jwtVerify_rawToken (cid : Nat) (cemail secret : String) (E now : Nat)
    (hbar : '|' ∉ secret.data) :
    jwtVerify (rawToken cid cemail secret E) secret now =
      if now < E then some ⟨cid, cemail⟩ else none := by
  unfold jwtVerify
  simp only [rawToken_data, splitBar_append (natToStr_no_bar cid),
    splitBar_append (natToStr_no_bar E), splitBar_append hbar,
    digitsToNat_natToStr, decodeChars_encodeChars]
  by_cases hlt : now < E
  · simp [hlt]
  · simp [hlt]

theorem jwtVerify_jwtSign (c : Claims) (secret : String) (iat now : Nat)
    (hbar : '|' ∉ secret.data) :
    jwtVerify (jwtSign c secret iat) secret now =
      if now < iat + 43200 then some c else none := by
  obtain ⟨cid, cemail⟩ := c
  exact jwtVerify_rawToken cid cemail secret (iat + 43200) now hbar

/-! ## Splitting lemmas for the auth header -/

theorem splitSp_no_space {l : List Char} (h : ∀ c ∈ l, c ≠ ' ') :
    splitSp l = [l] := by
  induction l with
  | nil => rfl
  | cons c cs ih =>
    have hc : c ≠ ' ' := h c (by simp)
    simp only [splitSp, if_neg hc, ih (fun x hx => h x (by simp [hx]))]

theorem splitSp_append {xs : List Char} (h : ∀ c ∈ xs, c ≠ ' ') (ys : List Char) :
    splitSp (xs ++ ' ' :: ys) = xs :: splitSp ys := by
  induction xs with
  | nil => simp [splitSp]
  | cons c cs ih =>
    have hc : c ≠ ' ' := h c (by simp)
    simp only [List.cons_append, splitSp, if_neg hc, List.append_eq,
      ih (fun x hx => h x (by simp [hx]))]

theorem rawToken_no_space (cid : Nat) (cemail secret : String) (E : Nat)
    (hs : ' ' ∉ secret.data) :
    ∀ x ∈ (rawToken cid cemail secret E).data, x ≠ ' ' := by
  intro x hx
  rw [rawToken_data] at hx
  rcases List.mem_append.mp hx with h | h
  · exact (charToDigit_ne_special (natToDigitsAux_all_digits h)).2.2
  rcases List.mem_cons.mp h with h | h
  · subst h; decide
  rcases List.mem_append.mp h with h | h
  · exact (charToDigit_ne_special (natToDigitsAux_all_digits h)).2.2
  rcases List.mem_cons.mp h with h | h
  · subst h; decide
  rcases List.mem_append.mp h with h | h
  · exact fun hsp => hs (hsp ▸ h)
  rcases List.mem_cons.mp h with h | h
  · subst h; decide
  rcases encodeChars_good cemail.data x h with hg | hg
  · exact (charToDigit_ne_special hg).2.2
  · subst hg; decide

theorem authMiddleware_bearer_raw (cid : Nat) (cemail secret : String) (E now : Nat)
    (hbar : '|' ∉ secret.data) (hsp : ' ' ∉ secret.data) :
    authMiddleware (some ("Bearer " ++ rawToken cid cemail secret E)) secret now =
      if now < E then .ok ⟨cid, cemail⟩ else .error .invalidToken := by
  have hdata : ("Bearer " ++ rawToken cid cemail secret E).data =
      "Bearer".data ++ ' ' :: (rawToken cid cemail secret E).data := by
    rw [String.data_append]
    rfl
  show (if ("Bearer " ++ rawToken cid cemail secret E).data = []
      then Except.error AuthErr.missing
      else match splitSp ("Bearer " ++ rawToken cid cemail secret E).data with
        | [_, tok] =>
          match jwtVerify ⟨tok⟩ secret now with
          | some c => Except.ok c
          | none => Except.error AuthErr.invalidToken
        | _ => Except.error AuthErr.badAuth) =
    if now < E then .ok ⟨cid, cemail⟩ else .error .invalidToken
  rw [hdata]
  rw [if_neg (by simp)]
  rw [splitSp_append (by decide) _,
    splitSp_no_space (rawToken_no_space cid cemail secret E hsp)]
  show (match jwtVerify ⟨(rawToken cid cemail secret E).data⟩ secret now with
    | some c => Except.ok c
    | none => Except.error AuthErr.invalidToken) = _
  rw [show (⟨(rawToken cid cemail secret E).data⟩ : String) = rawToken cid cemail secret E
    from rfl]
  rw [jwtVerify_rawToken cid cemail secret E now hbar]
  by_cases hlt : now < E
  · simp [hlt]
  · simp [hlt]

/-- The auth gate accepts a freshly issued token in a well-formed bearer
header exactly while it is unexpired, and yields the signed claims. -/
theorem authMiddleware_bearer (c : Claims) (secret : String) (iat now : Nat)
    (hbar : '|' ∉ secret.data) (hsp : ' ' ∉ secret.data) :
    authMiddleware (some ("Bearer " ++ jwtSign c secret iat)) secret now =
      if now < iat + 43200 then .ok c else .error .invalidToken := by
  obtain ⟨cid, cemail⟩ := c
  exact authMiddleware_bearer_raw cid cemail secret (iat + 43200) now hbar hsp

/-! ## Data model

The two tables `ensureTables` creates (server.js lines 70–87): `users` and
`documents`, in a database with collation `utf8mb4_unicode_ci`, so SQL string
comparison (`=`, `LIKE`, the unique index on `email`) is case-insensitive;
this is modelled by folding with `Char.toLower`.  Auto-increment counters are
carried explicitly.  `documents.user_id` is nullable (`ON DELETE SET NULL`). -/

/-- Case-fold a string: model of comparing under `utf8mb4_unicode_ci`. -/
def lowerStr (s : String) : String := ⟨s.data.map Char.toLower⟩

/-- SQL string equality under the schema's case-insensitive collation. -/
def mysqlEq (a b : String) : Bool := lowerStr a = lowerStr b

structure UserRow where
  id : Nat
  name : Option String
  email : String
  password_hash : String
  created_at : Nat
deriving DecidableEq, Repr

structure DocRow where
  id : Nat
  user_id : Option Nat
  document_name : String
  document_type : Option String
  document_date : Option String
  file_path : Option String
  original_filename : String
  created_at : Nat
deriving DecidableEq, Repr

structure DB where
  users : List UserRow
  documents : List DocRow
  nextUserId : Nat
  nextDocId : Nat
deriving DecidableEq, Repr

/-- The value of the `pool` handle once assigned by `mysql.createPool(...)`.
`createPool` opens no connection, so the handle exists even when the
database is unreachable: `connected db` is a pool whose connections reach a
database with contents `db`; `broken` is a pool whose every
`getConnection`/`query` fails with a connection error. -/
inductive PoolHandle where
  | connected (db : DB)
  | broken
deriving DecidableEq, Repr

/-- Process-wide state: the pool handle `let pool;` (`none` while unset —
only before `initPool` ran or if `createPool` itself threw) and the contents
of the uploads directory (blob names). -/
structure ServerState where
  pool : Option PoolHandle
  blobs : List String
deriving DecidableEq, Repr

/-- A `/api/search` result row: `d.*` plus `u.email as uploaded_by`. -/
structure SearchRow where
  doc : DocRow
  uploaded_by : Option String
deriving DecidableEq, Repr

/-- JSON response bodies the handlers produce. -/
inductive Body where
  | err (msg : String)
  | health (ok : Bool) (db_connected : Bool) (error : Option String)
  | signupOk (token : String) (id : Nat) (email : String)
  | loginOk (token : String) (id : Nat) (email : String) (name : Option String)
  | okTrue
  | docs (rows : List DocRow)
  | found (rows : List SearchRow)
deriving DecidableEq, Repr

/-- An HTTP response: status code and JSON body. -/
abbrev Resp := Nat × Body

/-- JavaScript truthiness of an optional string (absent and `""` are falsy). -/
def truthy : Option String → Bool
  | none => false
  | some s => s ≠ ""

/-! ## MySQL `LIKE` and `ORDER BY ... DESC LIMIT 200` -/

/-- Character comparison under the case-insensitive collation. -/
def eqC (a b : Char) : Bool := a.toLower = b.toLower

/-- Does a `LIKE` pattern match the empty string?  (Exactly when it is all
`%` wildcards.) -/
def likeOnEmpty : List Char → Bool
  | [] => true
  | p :: ps => p = '%' && likeOnEmpty ps

/-- One step of `LIKE` matching against a first character `c`, where `mr`
matches any pattern against the remaining characters: `%` consumes zero or
more characters, `_` exactly one, a backslash escapes the next pattern
character, and literals compare case-insensitively. -/
def likeCons (c : Char) (mr : List Char → Bool) : List Char → Bool
  | [] => false
  | p :: ps =>
    if p = '%' then likeCons c mr ps || mr ('%' :: ps)
    else if p = '_' then mr ps
    else if p = '\\' then
      match ps with
      | [] => eqC c '\\' && mr []
      | p' :: ps' => eqC c p' && mr ps'
    else eqC c p && mr ps

/-- MySQL `LIKE` matching: `%` matches any sequence, `_` any one character,
backslash escapes, literals compare case-insensitively. -/
def likeM : List Char → List Char → Bool
  | pat, [] => likeOnEmpty pat
  | pat, c :: cs => likeCons c (fun p => likeM p cs) pat

/-- `s LIKE pat` for string values. -/
def sqlLike (pat s : String) : Bool := likeM pat.data s.data

/-- SQL `col = v` for a nullable string column: `NULL` never matches. -/
def sqlEqCol (col : Option String) (v : String) : Bool :=
  match col with
  | some s => mysqlEq s v
  | none => false

/-- SQL `col = v` for the `DATE` column: `NULL` never matches; dates compare
exactly. -/
def sqlDateEqCol (col : Option String) (v : String) : Bool :=
  match col with
  | some s => s = v
  | none => false

/-- Insert a document into a list sorted by `created_at` descending. -/
def insertByCreated (d : DocRow) : List DocRow → List DocRow
  | [] => [d]
  | e :: es =>
    if e.created_at ≤ d.created_at then d :: e :: es else e :: insertByCreated d es

/-- `ORDER BY created_at DESC` (insertion sort). -/
def sortByCreatedDesc : List DocRow → List DocRow
  | [] => []
  | d :: ds => insertByCreated d (sortByCreatedDesc ds)

/-- `LEFT JOIN users u ON u.id = d.user_id`, projecting `u.email`. -/
def uploaderEmail (db : DB) (d : DocRow) : Option String :=
  match d.user_id with
  | none => none
  | some uid => (db.users.find? (fun u => u.id == uid)).map (fun u => u.email)

/-! ## Endpoint embeddings -/

/-- Embedding of `initPool` (server.js lines 38–59): `pool =
mysql.createPool(...)` is assigned before the quick `getConnection`/`ping`
test, and `createPool` performs no I/O, so the handle is created even when
the database is unreachable; the failing test is caught and only logged,
leaving the handle set (but broken).  The handle could stay unset only if
`createPool` itself threw synchronously, which unreachability does not
cause. -/
def initPool (reachable : Bool) (freshDB : DB) : Option PoolHandle :=
  some (if reachable then .connected freshDB else .broken)

/-- Embedding of `GET /api/health` (lines 132–149); `pingOk` abstracts the
outcome of the live `conn.ping()` probe on a connected pool and `emsg` the
text of the connection or ping error.  On a broken pool `getConnection`
itself fails, so the probe reports `db_connected:false` with the error text;
`"no-db-pool"` is answered only when the handle was never assigned. -/
def health (st : ServerState) (pingOk : Bool) (emsg : String) : Resp :=
  match st.pool with
  | none => (200, .health true false (some "no-db-pool"))
  | some .broken => (200, .health true false (some emsg))
  | some (.connected _) =>
    if pingOk then (200, .health true true none)
    else (200, .health true false (some emsg))

/-- Embedding of `POST /api/signup` (lines 152–166).  `now` is both the
insertion timestamp and the token issue time.  A JS-falsy email or password
is rejected with 400 before any query.  With the pool unset (TypeError) or
broken (connection error), `pool.query` fails and the surrounding catch
answers 500.  A duplicate email (unique index under the case-insensitive
collation) raises `ER_DUP_ENTRY`, answered with 400. -/
def signup (st : ServerState) (secret : String) (now : Nat)
    (name email password : Option String) : Resp × ServerState :=
  if !truthy email || !truthy password then
    ((400, .err "email/password required"), st)
  else
    match st.pool with
    | some (.connected db) =>
      let e := email.getD ""
      let p := password.getD ""
      if db.users.any (fun u => mysqlEq u.email e) then
        ((400, .err "User already exists"), st)
      else
        let uid := db.nextUserId
        let row : UserRow :=
          { id := uid
            name := if truthy name then name else none
            email := e
            password_hash := bcryptHash p
            created_at := now }
        ((200, .signupOk (jwtSign ⟨uid, e⟩ secret now) uid e),
          { st with
            pool := some (.connected
              { db with users := db.users ++ [row], nextUserId := uid + 1 }) })
    | _ => ((500, .err "internal"), st)

/-- The rows of `SELECT * FROM users WHERE email = ?`: an absent email is
escaped by the driver to SQL `NULL`, and `email = NULL` matches no row; a
present email compares under the case-insensitive index. -/
def loginRows (db : DB) : Option String → List UserRow
  | none => []
  | some e => db.users.filter (fun u => mysqlEq u.email e)

/-- Embedding of `POST /api/login` (lines 169–183).  With the pool unset or
broken, `pool.query` fails first (caught: 500).  No matching row — also the
case of an absent email, escaped to SQL `NULL` — and a hash mismatch both
answer the same generic 400; an absent password makes `bcrypt.compare`
reject (caught: 500). -/
def login (st : ServerState) (secret : String) (now : Nat)
    (email password : Option String) : Resp × ServerState :=
  match st.pool with
  | some (.connected db) =>
    match loginRows db email with
    | [] => ((400, .err "invalid"), st)
    | user :: _ =>
      match password with
      | none => ((500, .err "internal"), st)
      | some p =>
        if !bcryptCompare p user.password_hash then ((400, .err "invalid"), st)
        else
          ((200, .loginOk (jwtSign ⟨user.id, user.email⟩ secret now) user.id
            user.email user.name), st)
  | _ => ((500, .err "internal"), st)

/-- The uploaded file's metadata as multer sees it. -/
structure FileInfo where
  originalname : String
deriving DecidableEq, Repr

/-- Model of Node `path.extname` on a bare filename: the suffix from the last
dot, empty when there is no dot or the only dot leads the name. -/
def extname (s : String) : String :=
  let rev := s.data.reverse
  let after := rev.takeWhile (fun c => c ≠ '.')
  if after.length = rev.length then ""
  else if after.length + 1 = rev.length then ""
  else ⟨'.' :: after.reverse⟩

/-- The generated blob name (multer storage, lines 104–113):
`Date.now() + "-" + random` plus the original extension. -/
def storedBlobName (ts rand : Nat) (originalname : String) : String :=
  natToStr ts ++ "-" ++ natToStr rand ++ extname originalname

/-- Resolving a stored relative path against the application directory
(`path.join(__dirname, rel)`): it lands in the uploads (blob) directory
exactly when it has the form `uploads/<name>`, and then names that blob. -/
def stripUploads : List Char → Option (List Char)
  | 'u' :: 'p' :: 'l' :: 'o' :: 'a' :: 'd' :: 's' :: '/' :: rest => some rest
  | _ => none

def resolveRel (rel : String) : Option String :=
  (stripUploads rel.data).map (fun l => (⟨l⟩ : String))

/-- Is a path absolute (POSIX)? -/
def isAbsolutePath (s : String) : Bool :=
  match s.data with
  | '/' :: _ => true
  | _ => false

/-- Embedding of `POST /api/upload` (lines 186–201) together with the multer
storage (lines 104–113).  `authMiddleware` runs first; multer then streams
the blob into the uploads directory under `storedBlobName ts rand`; the
handler inserts the document row with
`file_path = path.relative(__dirname, req.file.path) = "uploads/" ++ name`.
With the pool unset or broken the insert fails after the blob was written
(caught: 500, blob orphaned). -/
def uploadDoc (st : ServerState) (secret : String) (now : Nat) (header : Option String)
    (file : Option FileInfo) (ts rand : Nat)
    (document_name document_type document_date : Option String) : Resp × ServerState :=
  match authMiddleware header secret now with
  | .error e => ((401, .err (authErrMsg e)), st)
  | .ok claims =>
    match file with
    | none => ((400, .err "file required"), st)
    | some f =>
      let storedName := storedBlobName ts rand f.originalname
      let st1 : ServerState := { st with blobs := st.blobs ++ [storedName] }
      match st1.pool with
      | some (.connected db) =>
        let row : DocRow :=
          { id := db.nextDocId
            user_id := some claims.id
            document_name :=
              if truthy document_name then document_name.getD "" else f.originalname
            document_type := if truthy document_type then document_type else none
            document_date := if truthy document_date then document_date else none
            file_path := some ("uploads/" ++ storedName)
            original_filename := f.originalname
            created_at := now }
        let db' : DB :=
          { db with documents := db.documents ++ [row], nextDocId := db.nextDocId + 1 }
        ((200, .okTrue), { st1 with pool := some (.connected db') })
      | _ => ((500, .err "upload failed"), st1)

/-- Embedding of `GET /api/mydocs` (lines 204–212). -/
def mydocs (st : ServerState) (secret : String) (now : Nat) (header : Option String) :
    Resp × ServerState :=
  match authMiddleware header secret now with
  | .error e => ((401, .err (authErrMsg e)), st)
  | .ok claims =>
    match st.pool with
    | some (.connected db) =>
      ((200, .docs (sortByCreatedDesc (db.documents.filter
        (fun d => d.user_id == some claims.id)))), st)
    | _ => ((500, .err "internal"), st)

/-- `String(doc.user_id)`: JavaScript stringification of the nullable owner
column (`String(null) = "null"`). -/
def jsStringOfUserId : Option Nat → String
  | none => "null"
  | some n => natToStr n

/-- Embedding of `DELETE /api/documents/:id` (lines 215–233).  `fsOk`
abstracts the outcome of `fs.unlinkSync` (a throw is caught and ignored).
The ownership check compares `String(doc.user_id) !== String(req.user.id)`. -/
def deleteDoc (st : ServerState) (secret : String) (now : Nat) (header : Option String)
    (id : Nat) (fsOk : Bool) : Resp × ServerState :=
  match authMiddleware header secret now with
  | .error e => ((401, .err (authErrMsg e)), st)
  | .ok claims =>
    match st.pool with
    | some (.connected db) =>
      match db.documents.find? (fun d => d.id == id) with
      | none => ((404, .err "not found"), st)
      | some doc =>
        if jsStringOfUserId doc.user_id ≠ natToStr claims.id then
          ((403, .err "forbidden"), st)
        else
          let blobs' :=
            if truthy doc.file_path && fsOk then
              match resolveRel (doc.file_path.getD "") with
              | some nm => st.blobs.erase nm
              | none => st.blobs
            else st.blobs
          ((200, .okTrue),
            { pool := some (.connected { db with
                documents := db.documents.filter (fun d => !(d.id == id)) })
              blobs := blobs' })
    | _ => ((500, .err "internal"), st)

/-- The WHERE clause `/api/search` builds (lines 241–243): each truthy query
parameter adds its conjunct; `q` is wrapped in `%`. -/
def searchWhere (q type date : Option String) (d : DocRow) : Bool :=
  (if truthy q then
      sqlLike ("%" ++ q.getD "" ++ "%") d.document_name ||
      sqlLike ("%" ++ q.getD "" ++ "%") d.original_filename
    else true) &&
  (if truthy type then sqlEqCol d.document_type (type.getD "") else true) &&
  (if truthy date then sqlDateEqCol d.document_date (date.getD "") else true)

/-- Embedding of `GET /api/search` (lines 236–251): filter, order by creation
time descending, cap at 200, left-join the uploader's email. -/
def searchDocs (st : ServerState) (q type date : Option String) : Resp :=
  match st.pool with
  | some (.connected db) =>
    let rows := (sortByCreatedDesc (db.documents.filter (searchWhere q type date))).take 200
    (200, .found (rows.map (fun d => ⟨d, uploaderEmail db d⟩)))
  | _ => (500, .err "internal")

/-! ## Spec-side definitions (for refinement comparison)

These follow the specification's words, to be compared with the embedding. -/

/-- Spec-side: `needle` starts `hay`, comparing characters case-insensitively. -/
def startsL : List Char → List Char → Bool
  | [], _ => true
  | _ :: _, [] => false
  | a :: as, b :: bs => eqC a b && startsL as bs

/-- Spec-side: `needle` occurs contiguously in `hay`, case-insensitively. -/
def hasSub : List Char → List Char → Bool
  | needle, [] => startsL needle []
  | needle, c :: cs => startsL needle (c :: cs) || hasSub needle cs

/-- "contains q as a case-insensitive substring". -/
def ciSubstring (needle hay : String) : Bool := hasSub needle.data hay.data

/-- Spec-side search matching (claim C1's words): `q` as a case-insensitive
substring of name or original filename (OR); `type` and `date` by exact
equality; provided filters combine by AND; absent ones impose nothing. -/
def specMatches (q type date : Option String) (d : DocRow) : Bool :=
  (if truthy q then
      ciSubstring (q.getD "") d.document_name ||
      ciSubstring (q.getD "") d.original_filename
    else true) &&
  (if truthy type then d.document_type == some (type.getD "") else true) &&
  (if truthy date then d.document_date == some (date.getD "") else true)

/-- Sortedness by creation time, descending (with ties allowed). -/
def sortedDescB : List DocRow → Bool
  | [] => true
  | [_] => true
  | a :: b :: rest => b.created_at ≤ a.created_at && sortedDescB (b :: rest)

/-! ## `LIKE '%q%'` is case-insensitive substring search when `q` has no
metacharacters -/

theorem likeM_percent_only : ∀ s : List Char, likeM ['%'] s = true := by
  intro s
  induction s with
  | nil => rfl
  | cons c cs ih =>
    show likeCons c (fun p => likeM p cs) ['%'] = true
    simp only [likeCons, if_pos rfl]
    simp [ih]

theorem eqC_comm (a b : Char) : eqC a b = eqC b a := by
  simp [eqC, eq_comm]

theorem likeM_plain_percent {q : List Char}
    (hq : ∀ c ∈ q, c ≠ '%' ∧ c ≠ '_' ∧ c ≠ '\\') :
    ∀ s : List Char, likeM (q ++ ['%']) s = startsL q s := by
  induction q with
  | nil =>
    intro s
    simp only [List.nil_append, likeM_percent_only]
    rfl
  | cons a as ih =>
    intro s
    obtain ⟨ha1, ha2, ha3⟩ := hq a (by simp)
    have ihs := ih (fun x hx => hq x (by simp [hx]))
    cases s with
    | nil =>
      show likeOnEmpty (a :: (as ++ ['%'])) = startsL (a :: as) []
      simp [likeOnEmpty, startsL, ha1]
    | cons c cs =>
      show likeCons c (fun p => likeM p cs) (a :: (as ++ ['%'])) = startsL (a :: as) (c :: cs)
      simp only [likeCons, if_neg ha1, if_neg ha2, if_neg ha3, startsL]
      rw [ihs cs, eqC_comm]

theorem likeM_percent_cons (ps : List Char) :
    ∀ s : List Char, likeM ('%' :: ps) s = true ↔ ∃ n, likeM ps (s.drop n) = true := by
  intro s
  induction s with
  | nil =>
    show likeOnEmpty ('%' :: ps) = true ↔ _
    have hsteq : likeOnEmpty ('%' :: ps) = likeOnEmpty ps := by
      simp [likeOnEmpty]
    rw [hsteq]
    constructor
    · intro h
      exact ⟨0, h⟩
    · rintro ⟨n, hn⟩
      simpa using hn
  | cons c cs ih =>
    show likeCons c (fun p => likeM p cs) ('%' :: ps) = true ↔ _
    have hsteq : likeCons c (fun p => likeM p cs) ('%' :: ps) =
        (likeM ps (c :: cs) || likeM ('%' :: ps) cs) := by
      simp [likeCons]
      rfl
    rw [hsteq, Bool.or_eq_true]
    constructor
    · rintro (h | h)
      · exact ⟨0, h⟩
      · obtain ⟨n, hn⟩ := ih.mp h
        exact ⟨n + 1, hn⟩
    · rintro ⟨n, hn⟩
      cases n with
      | zero => exact Or.inl hn
      | succ m => exact Or.inr (ih.mpr ⟨m, hn⟩)

theorem hasSub_iff (q : List Char) :
    ∀ s : List Char, hasSub q s = true ↔ ∃ n, startsL q (s.drop n) = true := by
  intro s
  induction s with
  | nil =>
    simp only [hasSub]
    constructor
    · intro h
      exact ⟨0, by simpa using h⟩
    · rintro ⟨n, hn⟩
      simpa using hn
  | cons c cs ih =>
    simp only [hasSub, Bool.or_eq_true]
    constructor
    · rintro (h | h)
      · exact ⟨0, h⟩
      · obtain ⟨n, hn⟩ := ih.mp h
        exact ⟨n + 1, hn⟩
    · rintro ⟨n, hn⟩
      cases n with
      | zero => exact Or.inl hn
      | succ m => exact Or.inr (ih.mpr ⟨m, hn⟩)

/-- When `q` contains no `LIKE` metacharacter, matching `%q%` is exactly
case-insensitive substring containment. -/
theorem sqlLike_wrap_eq_ciSubstring {q : String}
    (hq : ∀ c ∈ q.data, c ≠ '%' ∧ c ≠ '_' ∧ c ≠ '\\') (s : String) :
    sqlLike ("%" ++ q ++ "%") s = ciSubstring q s := by
  have hdata : ("%" ++ q ++ "%").data = '%' :: (q.data ++ ['%']) := by
    rw [String.data_append, String.data_append]
    rfl
  rw [sqlLike, hdata, ciSubstring]
  rcases hlike : likeM ('%' :: (q.data ++ ['%'])) s.data with _ | _
  · rcases hsub : hasSub q.data s.data with _ | _
    · rfl
    · exfalso
      obtain ⟨n, hn⟩ := (hasSub_iff q.data s.data).mp hsub
      have : likeM ('%' :: (q.data ++ ['%'])) s.data = true :=
        (likeM_percent_cons (q.data ++ ['%']) s.data).mpr
          ⟨n, by rw [likeM_plain_percent hq]; exact hn⟩
      rw [hlike] at this
      exact Bool.false_ne_true this
  · obtain ⟨n, hn⟩ := (likeM_percent_cons (q.data ++ ['%']) s.data).mp hlike
    rw [likeM_plain_percent hq] at hn
    exact ((hasSub_iff q.data s.data).mpr ⟨n, hn⟩).symm

/-! ## Sorting facts -/

theorem mem_insertByCreated {e d : DocRow} {l : List DocRow} :
    e ∈ insertByCreated d l ↔ e = d ∨ e ∈ l := by
  induction l with
  | nil => simp [insertByCreated]
  | cons a as ih =>
    simp only [insertByCreated]
    by_cases h : a.created_at ≤ d.created_at
    · simp [h]
    · simp only [if_neg h, List.mem_cons, ih]
      tauto

theorem mem_sortByCreatedDesc {d : DocRow} {l : List DocRow} :
    d ∈ sortByCreatedDesc l ↔ d ∈ l := by
  induction l with
  | nil => simp [sortByCreatedDesc]
  | cons a as ih =>
    simp only [sortByCreatedDesc, mem_insertByCreated, List.mem_cons, ih]

theorem length_insertByCreated (d : DocRow) (l : List DocRow) :
    (insertByCreated d l).length = l.length + 1 := by
  induction l with
  | nil => rfl
  | cons a as ih =>
    simp only [insertByCreated]
    by_cases h : a.created_at ≤ d.created_at
    · simp [h]
    · simp only [if_neg h, List.length_cons, ih]

theorem length_sortByCreatedDesc (l : List DocRow) :
    (sortByCreatedDesc l).length = l.length := by
  induction l with
  | nil => rfl
  | cons a as ih =>
    simp only [sortByCreatedDesc, length_insertByCreated, List.length_cons, ih]

theorem sortedDescB_insertByCreated {d : DocRow} {l : List DocRow}
    (h : sortedDescB l = true) : sortedDescB (insertByCreated d l) = true := by
  induction l with
  | nil => rfl
  | cons a as ih =>
    simp only [insertByCreated]
    by_cases had : a.created_at ≤ d.created_at
    · rw [if_pos had]
      show sortedDescB (d :: a :: as) = true
      simp only [sortedDescB, Bool.and_eq_true, decide_eq_true_eq]
      exact ⟨had, h⟩
    · rw [if_neg had]
      have hda : d.created_at ≤ a.created_at := by omega
      cases as with
      | nil =>
        show sortedDescB [a, d] = true
        simp only [sortedDescB, Bool.and_eq_true, decide_eq_true_eq]
        exact ⟨hda, trivial⟩
      | cons b bs =>
        have h' := h
        simp only [sortedDescB, Bool.and_eq_true, decide_eq_true_eq] at h'
        obtain ⟨hba, hbs⟩ := h'
        have hins := ih hbs
        simp only [insertByCreated]
        by_cases hbd : b.created_at ≤ d.created_at
        · rw [if_pos hbd]
          show sortedDescB (a :: d :: b :: bs) = true
          simp only [sortedDescB, Bool.and_eq_true, decide_eq_true_eq]
          exact ⟨hda, hbd, by
            simpa only [sortedDescB, Bool.and_eq_true, decide_eq_true_eq] using hbs⟩
        · rw [if_neg hbd]
          simp only [insertByCreated, if_neg hbd] at hins
          show sortedDescB (a :: b :: insertByCreated d bs) = true
          simp only [sortedDescB, Bool.and_eq_true, decide_eq_true_eq]
          exact ⟨hba, hins⟩

theorem sortedDescB_sortByCreatedDesc (l : List DocRow) :
    sortedDescB (sortByCreatedDesc l) = true := by
  induction l with
  | nil => rfl
  | cons a as ih => exact sortedDescB_insertByCreated ih

theorem sortedDescB_take (n : Nat) {l : List DocRow} (h : sortedDescB l = true) :
    sortedDescB (l.take n) = true := by
  induction l generalizing n with
  | nil =>
    rw [List.take_nil]
    rfl
  | cons a as ih =>
    cases n with
    | zero => rfl
    | succ m =>
      rw [List.take_succ_cons]
      cases as with
      | nil =>
        cases m <;> rfl
      | cons b bs =>
        have h' := h
        simp only [sortedDescB, Bool.and_eq_true, decide_eq_true_eq] at h'
        obtain ⟨hba, hbs⟩ := h'
        cases m with
        | zero => rfl
        | succ k =>
          rw [List.take_succ_cons]
          have hrec := ih (n := k + 1) hbs
          rw [List.take_succ_cons] at hrec
          show sortedDescB (a :: b :: bs.take k) = true
          simp only [sortedDescB, Bool.and_eq_true, decide_eq_true_eq]
          exact ⟨hba, hrec⟩

/-! ## Claim theorems -/

theorem jsStringOfUserId_eq_iff (o : Option Nat) (n : Nat) :
    jsStringOfUserId o = natToStr n ↔ o = some n := by
  cases o with
  | none =>
    simp only [jsStringOfUserId]
    constructor
    · intro h
      exact absurd h.symm (natToStr_ne_null n)
    · intro h
      exact Option.noConfusion h
  | some m =>
    simp only [jsStringOfUserId, Option.some.injEq]
    constructor
    · exact natToStr_injective
    · intro h
      rw [h]

/-- C10: a document whose owner reference has become NULL (owning user row
removed, `ON DELETE SET NULL`) can never be deleted through the API: for
every authenticated requester the handler returns 403 Forbidden, because
`String(null) = "null"` never equals the requester's decimal id, and the
state (row and blobs) is left untouched. -/
theorem delete_null_owner_forbidden (st : ServerState) (db : DB) (secret : String)
    (now : Nat) (header : Option String) (c : Claims) (id : Nat) (fsOk : Bool)
    (doc : DocRow)
    (hauth : authMiddleware header secret now = .ok c)
    (hpool : st.pool = some (.connected db))
    (hfind : db.documents.find? (fun d => d.id == id) = some doc)
    (hnull : doc.user_id = none) :
    deleteDoc st secret now header id fsOk = ((403, .err "forbidden"), st) := by
  have hne : jsStringOfUserId doc.user_id ≠ natToStr c.id := by
    rw [hnull]
    intro h
    exact natToStr_ne_null c.id h.symm
  simp only [deleteDoc, hauth, hpool, hfind]
  rw [if_pos hne]

/-- C2: for every delete request with a valid token: no row with the id →
404 NotFound with untouched state; a row owned by someone else (including a
NULL owner) → 403 Forbidden with untouched state; otherwise the blob removal
is attempted best-effort (`fsOk` abstracts the filesystem outcome, a failure
is swallowed) and, for either outcome, the row is deleted and success
returned. -/
theorem deleteById_contract (st : ServerState) (db : DB) (secret : String) (now : Nat)
    (header : Option String) (c : Claims) (id : Nat) (fsOk : Bool)
    (hauth : authMiddleware header secret now = .ok c)
    (hpool : st.pool = some (.connected db)) :
    (db.documents.find? (fun d => d.id == id) = none →
      deleteDoc st secret now header id fsOk = ((404, .err "not found"), st)) ∧
    (∀ doc, db.documents.find? (fun d => d.id == id) = some doc →
      doc.user_id ≠ some c.id →
      deleteDoc st secret now header id fsOk = ((403, .err "forbidden"), st)) ∧
    (∀ doc, db.documents.find? (fun d => d.id == id) = some doc →
      doc.user_id = some c.id →
      (deleteDoc st secret now header id fsOk).1 = (200, .okTrue) ∧
      (deleteDoc st secret now header id fsOk).2.pool =
        some (.connected
          { db with documents := db.documents.filter (fun d => !(d.id == id)) })) := by
  refine ⟨?_, ?_, ?_⟩
  · intro hfind
    simp only [deleteDoc, hauth, hpool, hfind]
  · intro doc hfind hne
    have hne' : jsStringOfUserId doc.user_id ≠ natToStr c.id := by
      intro h
      exact hne ((jsStringOfUserId_eq_iff doc.user_id c.id).mp h)
    simp only [deleteDoc, hauth, hpool, hfind]
    rw [if_pos hne']
  · intro doc hfind hown
    have heq : jsStringOfUserId doc.user_id = natToStr c.id :=
      (jsStringOfUserId_eq_iff doc.user_id c.id).mpr hown
    constructor
    · simp only [deleteDoc, hauth, hpool, hfind]
      rw [if_neg (fun hcontra => hcontra heq)]
    · simp only [deleteDoc, hauth, hpool, hfind]
      rw [if_neg (fun hcontra => hcontra heq)]

/-- C6: a delete refused with 403 Forbidden because the requester (B) is not
the owner modifies nothing — response and state are exactly `(403, st)`,
covering both the document rows and the blobs.  A subsequent delete by the
owner (A) succeeds with `{ok:true}` and removes the row whatever the
filesystem outcome of the blob removal. -/
theorem delete_forbidden_frame (st : ServerState) (db : DB) (secret : String)
    (now : Nat) (hdrB hdrA : Option String) (cB cA : Claims) (id : Nat)
    (fsOkB fsOkA : Bool) (doc : DocRow)
    (hpool : st.pool = some (.connected db))
    (hauthB : authMiddleware hdrB secret now = .ok cB)
    (hauthA : authMiddleware hdrA secret now = .ok cA)
    (hfind : db.documents.find? (fun d => d.id == id) = some doc)
    (hown : doc.user_id = some cA.id)
    (hne : cB.id ≠ cA.id) :
    deleteDoc st secret now hdrB id fsOkB = ((403, .err "forbidden"), st) ∧
    (deleteDoc st secret now hdrA id fsOkA).1 = (200, .okTrue) ∧
    (deleteDoc st secret now hdrA id fsOkA).2.pool =
      some (.connected
        { db with documents := db.documents.filter (fun d => !(d.id == id)) }) := by
  have hneB : jsStringOfUserId doc.user_id ≠ natToStr cB.id := by
    intro h
    have := (jsStringOfUserId_eq_iff doc.user_id cB.id).mp h
    rw [hown] at this
    exact hne (Option.some.inj this).symm
  have heqA : jsStringOfUserId doc.user_id = natToStr cA.id :=
    (jsStringOfUserId_eq_iff doc.user_id cA.id).mpr hown
  refine ⟨?_, ?_, ?_⟩
  · simp only [deleteDoc, hauthB, hpool, hfind]
    rw [if_pos hneB]
  · simp only [deleteDoc, hauthA, hpool, hfind]
    rw [if_neg (fun hcontra => hcontra heqA)]
  · simp only [deleteDoc, hauthA, hpool, hfind]
    rw [if_neg (fun hcontra => hcontra heqA)]

/-- C5: two-run indistinguishability of login failures.  A run against a
store with no user for the email and a run against a store holding the email
but with a non-matching password produce the same 400 status with the same
generic `{error:"invalid"}` body, so the caller cannot tell which check
failed. -/
theorem login_failure_indistinguishable (st1 st2 : ServerState) (db1 db2 : DB)
    (secret : String) (now1 now2 : Nat) (e1 e2 p1 p2 : String)
    (u : UserRow) (rest : List UserRow)
    (hp1 : st1.pool = some (.connected db1)) (hp2 : st2.pool = some (.connected db2))
    (hnone : db1.users.filter (fun v => mysqlEq v.email e1) = [])
    (hfound : db2.users.filter (fun v => mysqlEq v.email e2) = u :: rest)
    (hbad : bcryptCompare p2 u.password_hash = false) :
    login st1 secret now1 (some e1) (some p1) = ((400, .err "invalid"), st1) ∧
    login st2 secret now2 (some e2) (some p2) = ((400, .err "invalid"), st2) ∧
    (login st1 secret now1 (some e1) (some p1)).1 =
      (login st2 secret now2 (some e2) (some p2)).1 := by
  have h1 : login st1 secret now1 (some e1) (some p1) = ((400, .err "invalid"), st1) := by
    simp only [login, hp1, loginRows, hnone]
  have h2 : login st2 secret now2 (some e2) (some p2) = ((400, .err "invalid"), st2) := by
    simp only [login, hp2, loginRows, hfound, hbad]
    rfl
  exact ⟨h1, h2, by rw [h1, h2]⟩

/-- C7 (amended): with the database unreachable at startup the pool handle
is assigned anyway — `createPool` performs no I/O, and the failing
`getConnection`/`ping` test after the assignment is caught and only logged,
leaving the handle set but broken — and the process keeps serving: every
handler is a total function that, on the broken pool, answers a degraded
response (health: 200 with `db_connected:false` and the connection error's
text; the store-backed endpoints: 500 with their generic catch-handler
body, the `pool.query` connection error being caught locally) instead of an
unhandled fault. -/
theorem degraded_mode (freshDB : DB) (st : ServerState) (secret : String) (now : Nat)
    (pingOk : Bool) (emsg : String) (name email password : Option String)
    (header : Option String) (f : FileInfo) (ts rand : Nat)
    (dn dt dd : Option String) (id : Nat) (fsOk : Bool) (q ty da : Option String)
    (c : Claims)
    (hpool : st.pool = some .broken)
    (hauth : authMiddleware header secret now = .ok c) :
    initPool false freshDB = some .broken ∧
    health st pingOk emsg = (200, .health true false (some emsg)) ∧
    (truthy email = true → truthy password = true →
      signup st secret now name email password = ((500, .err "internal"), st)) ∧
    (∀ le lp, login st secret now le lp = ((500, .err "internal"), st)) ∧
    uploadDoc st secret now header (some f) ts rand dn dt dd =
      ((500, .err "upload failed"),
        { st with blobs := st.blobs ++ [storedBlobName ts rand f.originalname] }) ∧
    mydocs st secret now header = ((500, .err "internal"), st) ∧
    deleteDoc st secret now header id fsOk = ((500, .err "internal"), st) ∧
    searchDocs st q ty da = (500, .err "internal") := by
  refine ⟨rfl, ?_, ?_, ?_, ?_, ?_, ?_, ?_⟩
  · simp only [health, hpool]
  · intro he hp
    simp only [signup, he, hp, hpool]
    rfl
  · intro le lp
    simp only [login, hpool]
  · simp only [uploadDoc, hauth, hpool]
  · simp only [mydocs, hauth, hpool]
  · simp only [deleteDoc, hauth, hpool]
  · simp only [searchDocs, hpool]

/-- C7 (counterexample to the claim as stated): with the database
unreachable at startup the pool handle does not stay unset — `pool =
mysql.createPool(...)` runs before the failing connection test and the
catch leaves it assigned — and the health probe on that broken pool reports
the connection error's text, never the `"no-db-pool"` body reserved for a
handle that was never assigned. -/
theorem pool_unset_counterexample :
    initPool false ⟨[], [], 1, 1⟩ = some .broken ∧
    initPool false ⟨[], [], 1, 1⟩ ≠ none ∧
    health ⟨initPool false ⟨[], [], 1, 1⟩, []⟩ false "connect ECONNREFUSED" =
      (200, .health true false (some "connect ECONNREFUSED")) ∧
    health ⟨initPool false ⟨[], [], 1, 1⟩, []⟩ false "connect ECONNREFUSED" ≠
      (200, .health true false (some "no-db-pool")) := by
  refine ⟨rfl, ?_, rfl, ?_⟩
  · decide
  · decide

/-- Evaluation of `signup` in its three reachable pool-backed branches
(shared helper). -/
theorem signup_eval (st : ServerState) (db : DB) (secret : String) (now : Nat)
    (name email password : Option String)
    (hpool : st.pool = some (.connected db)) :
    (truthy email = false ∨ truthy password = false →
      signup st secret now name email password =
        ((400, .err "email/password required"), st)) ∧
    (truthy email = true → truthy password = true →
      (∃ u ∈ db.users, mysqlEq u.email (email.getD "") = true) →
      signup st secret now name email password =
        ((400, .err "User already exists"), st)) ∧
    (truthy email = true → truthy password = true →
      (∀ u ∈ db.users, mysqlEq u.email (email.getD "") = false) →
      signup st secret now name email password =
        ((200, .signupOk (jwtSign ⟨db.nextUserId, email.getD ""⟩ secret now)
            db.nextUserId (email.getD "")),
          { st with pool := some (.connected { db with
              users := db.users ++
                [⟨db.nextUserId, if truthy name then name else none,
                  email.getD "", bcryptHash (password.getD ""), now⟩],
              nextUserId := db.nextUserId + 1 }) })) := by
  refine ⟨?_, ?_, ?_⟩
  · intro hfalsy
    rcases hfalsy with he | hp
    · simp only [signup, he]
      rfl
    · simp only [signup, hp]
      simp
  · intro he hp hdup
    have hany : db.users.any (fun u => mysqlEq u.email (email.getD "")) = true := by
      rw [List.any_eq_true]
      obtain ⟨u, hu, hm⟩ := hdup
      exact ⟨u, hu, hm⟩
    simp only [signup, he, hp, hpool, hany]
    rfl
  · intro he hp hnodup
    have hany : db.users.any (fun u => mysqlEq u.email (email.getD "")) = false := by
      rw [Bool.eq_false_iff]
      intro hcontra
      rw [List.any_eq_true] at hcontra
      obtain ⟨u, hu, hm⟩ := hcontra
      rw [hnodup u hu] at hm
      exact Bool.false_ne_true hm
    simp only [signup, he, hp, hpool, hany]
    rfl

/-- C8: signup fails with 400 before any insertion when email or password is
JS-falsy; fails with the duplicate-email 400 (`ER_DUP_ENTRY` from the
case-insensitive unique index) leaving the store unchanged when the email
already belongs to a user; otherwise inserts exactly one row (the appended
user) and answers 200 with a token, the new id and the email. -/
theorem signup_contract (st : ServerState) (db : DB) (secret : String) (now : Nat)
    (name email password : Option String)
    (hpool : st.pool = some (.connected db)) :
    (truthy email = false ∨ truthy password = false →
      signup st secret now name email password =
        ((400, .err "email/password required"), st)) ∧
    (truthy email = true → truthy password = true →
      (∃ u ∈ db.users, mysqlEq u.email (email.getD "") = true) →
      signup st secret now name email password =
        ((400, .err "User already exists"), st)) ∧
    (truthy email = true → truthy password = true →
      (∀ u ∈ db.users, mysqlEq u.email (email.getD "") = false) →
      signup st secret now name email password =
        ((200, .signupOk (jwtSign ⟨db.nextUserId, email.getD ""⟩ secret now)
            db.nextUserId (email.getD "")),
          { st with pool := some (.connected { db with
              users := db.users ++
                [⟨db.nextUserId, if truthy name then name else none,
                  email.getD "", bcryptHash (password.getD ""), now⟩],
              nextUserId := db.nextUserId + 1 }) })) :=
  signup_eval st db secret now name email password hpool

/-- C3 (amended): the auth gate rejects with 401, before the protected
handler runs and without touching stored state: a missing (or empty) header;
a header that does not split on the space character into exactly two parts
(this structural check fires before signature verification, whatever the
header's contents); a token that does not verify; an expired token.  The
check itself is a pure function of the header, the secret and the clock. -/
theorem auth_gate_spec (secret : String) (now : Nat)
    (hbar : '|' ∉ secret.data) (hsp : ' ' ∉ secret.data) :
    authMiddleware none secret now = .error .missing ∧
    authMiddleware (some "") secret now = .error .missing ∧
    (∀ h : String, h.data ≠ [] → (splitSp h.data).length ≠ 2 →
      authMiddleware (some h) secret now = .error .badAuth) ∧
    (∀ (h : String) s1 tok, h.data ≠ [] → splitSp h.data = [s1, tok] →
      jwtVerify ⟨tok⟩ secret now = none →
      authMiddleware (some h) secret now = .error .invalidToken) ∧
    (∀ (c : Claims) (iat : Nat), iat + 43200 ≤ now →
      authMiddleware (some ("Bearer " ++ jwtSign c secret iat)) secret now =
        .error .invalidToken) ∧
    (∀ (st : ServerState) (hdr : Option String) (id : Nat) (fsOk : Bool) (e : AuthErr),
      authMiddleware hdr secret now = .error e →
      deleteDoc st secret now hdr id fsOk = ((401, .err (authErrMsg e)), st)) ∧
    (∀ (st : ServerState) (hdr : Option String) (e : AuthErr),
      authMiddleware hdr secret now = .error e →
      mydocs st secret now hdr = ((401, .err (authErrMsg e)), st)) ∧
    (∀ (st : ServerState) (hdr : Option String) (file : Option FileInfo)
      (ts rand : Nat) (dn dt dd : Option String) (e : AuthErr),
      authMiddleware hdr secret now = .error e →
      uploadDoc st secret now hdr file ts rand dn dt dd =
        ((401, .err (authErrMsg e)), st)) := by
  refine ⟨rfl, rfl, ?_, ?_, ?_, ?_, ?_, ?_⟩
  · intro h h1 h2
    simp only [authMiddleware, if_neg h1]
    rcases hs : splitSp h.data with _ | ⟨a, _ | ⟨b, _ | ⟨x, xs⟩⟩⟩
    · rfl
    · rfl
    · rw [hs] at h2
      simp at h2
    · rfl
  · intro h s1 tok h1 hsplit hver
    simp only [authMiddleware, if_neg h1, hsplit, hver]
  · intro c iat hexp
    rw [authMiddleware_bearer c secret iat now hbar hsp]
    rw [if_neg (by omega)]
  · intro st hdr id fsOk e hauth
    simp only [deleteDoc, hauth]
  · intro st hdr e hauth
    simp only [mydocs, hauth]
  · intro st hdr file ts rand dn dt dd e hauth
    simp only [uploadDoc, hauth]

/-- C3 (counterexample to the claim as stated): the header
`"Bearer\tx " ++ <valid token>` does not consist of exactly two
whitespace-separated parts (it has three), yet the gate accepts it and the
protected handler runs with the signed identity: the code splits on the
space character only, not on whitespace. -/
theorem auth_whitespace_counterexample :
    (splitWS ("Bearer\tx " ++ jwtSign ⟨1, "a@x.com"⟩ JWT_SECRET 0).data).length ≠ 2 ∧
    authMiddleware (some ("Bearer\tx " ++ jwtSign ⟨1, "a@x.com"⟩ JWT_SECRET 0))
      JWT_SECRET 100 = .ok ⟨1, "a@x.com"⟩ := by
  constructor
  · decide
  · decide

theorem signup_token_shape {st st' : ServerState} {secret : String} {now : Nat}
    {name email password : Option String} {tok : String} {uid : Nat} {em : String}
    (h : signup st secret now name email password = ((200, .signupOk tok uid em), st')) :
    tok = jwtSign ⟨uid, em⟩ secret now := by
  by_cases he : truthy email = true
  · by_cases hpw : truthy password = true
    · rcases hpool : st.pool with _ | ⟨db⟩ | _
      · rw [show signup st secret now name email password = ((500, .err "internal"), st)
          from by simp only [signup, he, hpw, hpool]; rfl] at h
        simp at h
      · by_cases hany : db.users.any (fun u => mysqlEq u.email (email.getD "")) = true
        · rw [show signup st secret now name email password =
              ((400, .err "User already exists"), st)
            from by simp only [signup, he, hpw, hpool, hany]; rfl] at h
          simp at h
        · have hany' : db.users.any (fun u => mysqlEq u.email (email.getD "")) = false := by
            revert hany
            cases db.users.any (fun u => mysqlEq u.email (email.getD "")) <;> simp
          rw [show signup st secret now name email password =
              ((200, .signupOk (jwtSign ⟨db.nextUserId, email.getD ""⟩ secret now)
                db.nextUserId (email.getD "")),
              { st with pool := some (.connected { db with
                  users := db.users ++
                    [⟨db.nextUserId, if truthy name then name else none,
                      email.getD "", bcryptHash (password.getD ""), now⟩],
                  nextUserId := db.nextUserId + 1 }) })
            from by simp only [signup, he, hpw, hpool, hany']; rfl] at h
          simp only [Prod.mk.injEq, Body.signupOk.injEq] at h
          obtain ⟨⟨-, htok, huid, hem⟩, -⟩ := h
          rw [← huid, ← hem, htok]
      · rw [show signup st secret now name email password = ((500, .err "internal"), st)
          from by simp only [signup, he, hpw, hpool]; rfl] at h
        simp at h
    · have hpw' : truthy password = false := by
        revert hpw
        cases truthy password <;> simp
      rw [show signup st secret now name email password =
          ((400, .err "email/password required"), st)
        from by simp only [signup, hpw']; simp] at h
      simp at h
  · have he' : truthy email = false := by
      revert he
      cases truthy email <;> simp
    rw [show signup st secret now name email password =
        ((400, .err "email/password required"), st)
      from by simp only [signup, he']; rfl] at h
    simp at h

theorem login_token_shape {st st' : ServerState} {secret : String} {now : Nat}
    {email password : Option String} {tok : String} {uid : Nat} {em : String}
    {nm : Option String}
    (h : login st secret now email password = ((200, .loginOk tok uid em nm), st')) :
    tok = jwtSign ⟨uid, em⟩ secret now := by
  rcases hpool : st.pool with _ | ⟨db⟩ | _
  · rw [show login st secret now email password = ((500, .err "internal"), st)
      from by simp only [login, hpool]] at h
    simp at h
  · rcases hrows : loginRows db email with _ | ⟨u, rest⟩
    · rw [show login st secret now email password = ((400, .err "invalid"), st)
        from by simp only [login, hpool, hrows]] at h
      simp at h
    · rcases password with _ | p
      · rw [show login st secret now email none = ((500, .err "internal"), st)
          from by simp only [login, hpool, hrows]] at h
        simp at h
      · by_cases hcmp : bcryptCompare p u.password_hash = true
        · rw [show login st secret now email (some p) =
              ((200, .loginOk (jwtSign ⟨u.id, u.email⟩ secret now) u.id u.email u.name),
                st)
            from by simp only [login, hpool, hrows, hcmp]; rfl] at h
          simp only [Prod.mk.injEq, Body.loginOk.injEq] at h
          obtain ⟨⟨-, htok, huid, hem, -⟩, -⟩ := h
          rw [← huid, ← hem, htok]
        · have hcmp' : bcryptCompare p u.password_hash = false := by
            revert hcmp
            cases bcryptCompare p u.password_hash <;> simp
          rw [show login st secret now email (some p) = ((400, .err "invalid"), st)
            from by simp only [login, hpool, hrows, hcmp']; rfl] at h
          simp at h
  · rw [show login st secret now email password = ((500, .err "internal"), st)
      from by simp only [login, hpool]] at h
    simp at h

/-- C4: round-trip of token issuance and verification.  A token issued by a
successful signup or login, presented unmodified in a well-formed bearer
header, is accepted by the auth gate strictly before the 12-hour expiry and
yields exactly the signed `{id, email}` claim; presented at or after expiry
it is rejected (the gate answers 401 for every auth error). -/
theorem token_roundtrip (st st' : ServerState) (secret : String) (iat now now' : Nat)
    (sname semail spw lemail lpw nm : Option String)
    (tok : String) (uid : Nat) (em : String)
    (hbar : '|' ∉ secret.data) (hsp : ' ' ∉ secret.data)
    (hiss : signup st secret iat sname semail spw = ((200, .signupOk tok uid em), st') ∨
      login st secret iat lemail lpw = ((200, .loginOk tok uid em nm), st'))
    (hfresh : now < iat + 43200) (hstale : iat + 43200 ≤ now') :
    authMiddleware (some ("Bearer " ++ tok)) secret now = .ok ⟨uid, em⟩ ∧
    authMiddleware (some ("Bearer " ++ tok)) secret now' = .error .invalidToken := by
  have htok : tok = jwtSign ⟨uid, em⟩ secret iat := by
    rcases hiss with h | h
    · exact signup_token_shape h
    · exact login_token_shape h
  subst htok
  rw [authMiddleware_bearer ⟨uid, em⟩ secret iat now hbar hsp,
    authMiddleware_bearer ⟨uid, em⟩ secret iat now' hbar hsp]
  rw [if_pos hfresh, if_neg (by omega)]
  exact ⟨rfl, rfl⟩

/-- Spec-side search matching as amended: `q` (free of `LIKE`
metacharacters) as a case-insensitive substring of name or original filename
(OR); `type` by equality under the store's case-insensitive collation
(`NULL` never matches); `date` by exact equality (`NULL` never matches);
truthy filters combine by AND, absent or empty ones impose nothing. -/
def specAmendedMatches (q type date : Option String) (d : DocRow) : Bool :=
  (if truthy q then
      ciSubstring (q.getD "") d.document_name ||
      ciSubstring (q.getD "") d.original_filename
    else true) &&
  (if truthy type then sqlEqCol d.document_type (type.getD "") else true) &&
  (if truthy date then sqlDateEqCol d.document_date (date.getD "") else true)

theorem searchWhere_eq_specAmended {q : Option String} (type date : Option String)
    (hq : ∀ c ∈ (q.getD "").data, c ≠ '%' ∧ c ≠ '_' ∧ c ≠ '\\') (d : DocRow) :
    searchWhere q type date d = specAmendedMatches q type date d := by
  unfold searchWhere specAmendedMatches
  rw [sqlLike_wrap_eq_ciSubstring hq, sqlLike_wrap_eq_ciSubstring hq]

/-- C1 (amended): for a search whose `q` contains no `LIKE` metacharacter
(`%`, `_`, backslash), the result is exactly the matching documents — a row
appears only if it matches, and every matching document appears whenever at
most 200 match — where matching means: `q` as case-insensitive substring of
name or original filename (OR), `type` equal under the case-insensitive
collation, `date` exactly equal, provided filters ANDed, absent ones free;
the result is ordered by creation time descending, holds at most 200 rows,
and each row carries the uploader's email (`NULL` when the owner was
removed). -/
theorem search_spec (st : ServerState) (db : DB) (q type date : Option String)
    (hpool : st.pool = some (.connected db))
    (hq : ∀ c ∈ (q.getD "").data, c ≠ '%' ∧ c ≠ '_' ∧ c ≠ '\\') :
    ∃ rows : List SearchRow,
      searchDocs st q type date = (200, .found rows) ∧
      rows.length ≤ 200 ∧
      sortedDescB (rows.map (fun r => r.doc)) = true ∧
      (∀ r ∈ rows, specAmendedMatches q type date r.doc = true ∧
        r.uploaded_by = uploaderEmail db r.doc) ∧
      ((db.documents.filter (searchWhere q type date)).length ≤ 200 →
        ∀ d ∈ db.documents, specAmendedMatches q type date d = true →
          (⟨d, uploaderEmail db d⟩ : SearchRow) ∈ rows) ∧
      (∀ d : DocRow, searchWhere q type date d = specAmendedMatches q type date d) := by
  refine ⟨((sortByCreatedDesc (db.documents.filter (searchWhere q type date))).take 200).map
      (fun d => ⟨d, uploaderEmail db d⟩), ?_, ?_, ?_, ?_, ?_, ?_⟩
  · simp only [searchDocs, hpool]
  · rw [List.length_map, List.length_take]
    exact min_le_left _ _
  · have hcomp : ((fun r : SearchRow => r.doc) ∘
        (fun d => (⟨d, uploaderEmail db d⟩ : SearchRow))) = fun d => d := rfl
    rw [List.map_map, hcomp, List.map_id']
    exact sortedDescB_take 200 (sortedDescB_sortByCreatedDesc _)
  · intro r hr
    obtain ⟨d, hd, rfl⟩ := List.mem_map.mp hr
    have hd' : d ∈ sortByCreatedDesc (db.documents.filter (searchWhere q type date)) :=
      List.take_subset 200 _ hd
    have hdf := mem_sortByCreatedDesc.mp hd'
    have hw := (List.mem_filter.mp hdf).2
    refine ⟨?_, rfl⟩
    rw [← searchWhere_eq_specAmended type date hq d]
    exact hw
  · intro hlen d hd hm
    have hflt : d ∈ db.documents.filter (searchWhere q type date) := by
      rw [List.mem_filter]
      refine ⟨hd, ?_⟩
      rw [searchWhere_eq_specAmended type date hq d]
      exact hm
    have hsorted := mem_sortByCreatedDesc.mpr hflt
    have htake : (sortByCreatedDesc (db.documents.filter (searchWhere q type date))).take 200 =
        sortByCreatedDesc (db.documents.filter (searchWhere q type date)) := by
      apply List.take_of_length_le
      rw [length_sortByCreatedDesc]
      exact hlen
    rw [htake]
    exact List.mem_map_of_mem _ hsorted
  · exact searchWhere_eq_specAmended type date hq

/-- C1 (counterexample to the claim as stated): first, with `q = "%"` the
search returns a document named `"abc"` although `"abc"` does not contain
`"%"` as a substring — the unescaped `q` is spliced into the `LIKE` pattern,
so metacharacters act as wildcards; second, with `type = "pdf"` the search
returns a document whose type is `"PDF"` although the two are not exactly
equal — equality runs under the store's case-insensitive collation. -/
theorem search_substring_exact_counterexample :
    (searchDocs ⟨some (.connected ⟨[⟨1, none, "a@x.com", "h", 0⟩],
        [⟨1, some 1, "abc", some "PDF", none, some "uploads/x.txt", "abc", 5⟩], 2, 2⟩),
        ["x.txt"]⟩ (some "%") none none =
      (200, .found [⟨⟨1, some 1, "abc", some "PDF", none, some "uploads/x.txt", "abc", 5⟩,
        some "a@x.com"⟩]) ∧
      specMatches (some "%") none none
        ⟨1, some 1, "abc", some "PDF", none, some "uploads/x.txt", "abc", 5⟩ = false) ∧
    (searchDocs ⟨some (.connected ⟨[⟨1, none, "a@x.com", "h", 0⟩],
        [⟨1, some 1, "abc", some "PDF", none, some "uploads/x.txt", "abc", 5⟩], 2, 2⟩),
        ["x.txt"]⟩ none (some "pdf") none =
      (200, .found [⟨⟨1, some 1, "abc", some "PDF", none, some "uploads/x.txt", "abc", 5⟩,
        some "a@x.com"⟩]) ∧
      specMatches none (some "pdf") none
        ⟨1, some 1, "abc", some "PDF", none, some "uploads/x.txt", "abc", 5⟩ = false) := by
  refine ⟨⟨?_, ?_⟩, ?_, ?_⟩ <;> decide

/-- C9 (amended): every document row created by a successful upload stores a
non-absolute `file_path` of the form `uploads/<generated name>`, expressed
relative to the server's application directory (the parent of the blob
root); resolving it against the application directory lands in the blob
root and names a blob that exists in blob storage at creation time. -/
theorem upload_file_path_invariant (st : ServerState) (db : DB) (secret : String)
    (now : Nat) (header : Option String) (c : Claims) (f : FileInfo) (ts rand : Nat)
    (dn dt dd : Option String)
    (hauth : authMiddleware header secret now = .ok c)
    (hpool : st.pool = some (.connected db)) :
    ∃ st' : ServerState,
      uploadDoc st secret now header (some f) ts rand dn dt dd = ((200, .okTrue), st') ∧
      ∃ db' : DB, st'.pool = some (.connected db') ∧
      ∃ row : DocRow, db'.documents = db.documents ++ [row] ∧
        row.file_path = some ("uploads/" ++ storedBlobName ts rand f.originalname) ∧
        isAbsolutePath ("uploads/" ++ storedBlobName ts rand f.originalname) = false ∧
        resolveRel ("uploads/" ++ storedBlobName ts rand f.originalname) =
          some (storedBlobName ts rand f.originalname) ∧
        storedBlobName ts rand f.originalname ∈ st'.blobs := by
  refine ⟨⟨some (.connected { db with
      documents := db.documents ++
        [⟨db.nextDocId, some c.id,
          (if truthy dn then dn.getD "" else f.originalname),
          (if truthy dt then dt else none), (if truthy dd then dd else none),
          some ("uploads/" ++ storedBlobName ts rand f.originalname), f.originalname, now⟩],
      nextDocId := db.nextDocId + 1 }),
      st.blobs ++ [storedBlobName ts rand f.originalname]⟩, ?_, _, rfl, _, rfl, rfl, rfl,
      rfl, ?_⟩
  · simp only [uploadDoc, hauth, hpool]
  · simp

/-- C9 (counterexample to the claim as stated): a concrete successful upload
stores `file_path = "uploads/5-7.txt"`, while the blob written to blob
storage is named `"5-7.txt"`: interpreted relative to the server's blob root
(the uploads directory itself), the stored path names no existing blob —
`file_path` is relative to the application directory, not to the blob
root. -/
theorem upload_blobroot_counterexample :
    uploadDoc ⟨some (.connected ⟨[⟨1, none, "a@x.com", "h", 0⟩], [], 2, 1⟩), []⟩ JWT_SECRET 10
        (some ("Bearer " ++ jwtSign ⟨1, "a@x.com"⟩ JWT_SECRET 0)) (some ⟨"r.txt"⟩) 5 7
        none none none =
      ((200, .okTrue),
        ⟨some (.connected ⟨[⟨1, none, "a@x.com", "h", 0⟩],
          [⟨1, some 1, "r.txt", none, none, some "uploads/5-7.txt", "r.txt", 10⟩], 2, 2⟩),
          ["5-7.txt"]⟩) ∧
    "uploads/5-7.txt" ∉ (["5-7.txt"] : List String) := by
  constructor
  · decide
  · decide

/-! ## Witnesses -/

theorem deleteById_contract_witness :
    authMiddleware (some ("Bearer " ++ jwtSign ⟨1, "a@x.com"⟩ JWT_SECRET 0))
      JWT_SECRET 10 = .ok ⟨1, "a@x.com"⟩ ∧
    (⟨some (.connected ⟨[⟨1, none, "a@x.com", "h", 0⟩],
        [⟨1, some 1, "n", none, none, some "uploads/x.txt", "n", 5⟩], 2, 2⟩),
      ["x.txt"]⟩ : ServerState).pool =
      some (.connected ⟨[⟨1, none, "a@x.com", "h", 0⟩],
        [⟨1, some 1, "n", none, none, some "uploads/x.txt", "n", 5⟩], 2, 2⟩) ∧
    (((⟨[⟨1, none, "a@x.com", "h", 0⟩],
        [⟨1, some 1, "n", none, none, some "uploads/x.txt", "n", 5⟩], 2, 2⟩ : DB).documents.find?
          (fun d => d.id == 1) = none →
      deleteDoc ⟨some (.connected ⟨[⟨1, none, "a@x.com", "h", 0⟩],
          [⟨1, some 1, "n", none, none, some "uploads/x.txt", "n", 5⟩], 2, 2⟩), ["x.txt"]⟩
        JWT_SECRET 10 (some ("Bearer " ++ jwtSign ⟨1, "a@x.com"⟩ JWT_SECRET 0)) 1 true =
        ((404, .err "not found"),
          ⟨some (.connected ⟨[⟨1, none, "a@x.com", "h", 0⟩],
            [⟨1, some 1, "n", none, none, some "uploads/x.txt", "n", 5⟩], 2, 2⟩), ["x.txt"]⟩)) ∧
    (∀ doc, (⟨[⟨1, none, "a@x.com", "h", 0⟩],
        [⟨1, some 1, "n", none, none, some "uploads/x.txt", "n", 5⟩], 2, 2⟩ : DB).documents.find?
          (fun d => d.id == 1) = some doc →
      doc.user_id ≠ some (Claims.mk 1 "a@x.com").id →
      deleteDoc ⟨some (.connected ⟨[⟨1, none, "a@x.com", "h", 0⟩],
          [⟨1, some 1, "n", none, none, some "uploads/x.txt", "n", 5⟩], 2, 2⟩), ["x.txt"]⟩
        JWT_SECRET 10 (some ("Bearer " ++ jwtSign ⟨1, "a@x.com"⟩ JWT_SECRET 0)) 1 true =
        ((403, .err "forbidden"),
          ⟨some (.connected ⟨[⟨1, none, "a@x.com", "h", 0⟩],
            [⟨1, some 1, "n", none, none, some "uploads/x.txt", "n", 5⟩], 2, 2⟩), ["x.txt"]⟩)) ∧
    (∀ doc, (⟨[⟨1, none, "a@x.com", "h", 0⟩],
        [⟨1, some 1, "n", none, none, some "uploads/x.txt", "n", 5⟩], 2, 2⟩ : DB).documents.find?
          (fun d => d.id == 1) = some doc →
      doc.user_id = some (Claims.mk 1 "a@x.com").id →
      (deleteDoc ⟨some (.connected ⟨[⟨1, none, "a@x.com", "h", 0⟩],
          [⟨1, some 1, "n", none, none, some "uploads/x.txt", "n", 5⟩], 2, 2⟩), ["x.txt"]⟩
        JWT_SECRET 10 (some ("Bearer " ++ jwtSign ⟨1, "a@x.com"⟩ JWT_SECRET 0)) 1 true).1 =
        (200, .okTrue) ∧
      (deleteDoc ⟨some (.connected ⟨[⟨1, none, "a@x.com", "h", 0⟩],
          [⟨1, some 1, "n", none, none, some "uploads/x.txt", "n", 5⟩], 2, 2⟩), ["x.txt"]⟩
        JWT_SECRET 10 (some ("Bearer " ++ jwtSign ⟨1, "a@x.com"⟩ JWT_SECRET 0)) 1 true).2.pool =
        some (.connected { (⟨[⟨1, none, "a@x.com", "h", 0⟩],
            [⟨1, some 1, "n", none, none, some "uploads/x.txt", "n", 5⟩], 2, 2⟩ : DB) with
          documents := (⟨[⟨1, none, "a@x.com", "h", 0⟩],
            [⟨1, some 1, "n", none, none, some "uploads/x.txt", "n", 5⟩], 2, 2⟩ : DB).documents.filter
              (fun d => !(d.id == 1)) }))) :=
  ⟨by decide, rfl,
    deleteById_contract _ _ JWT_SECRET 10 _ ⟨1, "a@x.com"⟩ 1 true (by decide) rfl⟩

theorem login_failure_indistinguishable_witness :
    (⟨some (.connected ⟨[], [], 1, 1⟩), []⟩ : ServerState).pool = some (.connected ⟨[], [], 1, 1⟩) ∧
    (⟨some (.connected ⟨[⟨1, none, "b@y.com", bcryptHash "right", 0⟩], [], 2, 1⟩), []⟩ :
      ServerState).pool = some (.connected ⟨[⟨1, none, "b@y.com", bcryptHash "right", 0⟩], [], 2, 1⟩) ∧
    (⟨[], [], 1, 1⟩ : DB).users.filter (fun v => mysqlEq v.email "a@x.com") = [] ∧
    (⟨[⟨1, none, "b@y.com", bcryptHash "right", 0⟩], [], 2, 1⟩ : DB).users.filter
      (fun v => mysqlEq v.email "b@y.com") = [⟨1, none, "b@y.com", bcryptHash "right", 0⟩] ∧
    bcryptCompare "wrong" (UserRow.mk 1 none "b@y.com" (bcryptHash "right") 0).password_hash
      = false ∧
    (login ⟨some (.connected ⟨[], [], 1, 1⟩), []⟩ JWT_SECRET 0 (some "a@x.com") (some "x") =
      ((400, .err "invalid"), ⟨some (.connected ⟨[], [], 1, 1⟩), []⟩) ∧
    login ⟨some (.connected ⟨[⟨1, none, "b@y.com", bcryptHash "right", 0⟩], [], 2, 1⟩), []⟩ JWT_SECRET 0
        (some "b@y.com") (some "wrong") =
      ((400, .err "invalid"),
        ⟨some (.connected ⟨[⟨1, none, "b@y.com", bcryptHash "right", 0⟩], [], 2, 1⟩), []⟩) ∧
    (login ⟨some (.connected ⟨[], [], 1, 1⟩), []⟩ JWT_SECRET 0 (some "a@x.com") (some "x")).1 =
      (login ⟨some (.connected ⟨[⟨1, none, "b@y.com", bcryptHash "right", 0⟩], [], 2, 1⟩), []⟩ JWT_SECRET 0
        (some "b@y.com") (some "wrong")).1) :=
  ⟨rfl, rfl, by decide, by decide, by decide,
    login_failure_indistinguishable _ _ _ _ JWT_SECRET 0 0 "a@x.com" "b@y.com" "x" "wrong"
      ⟨1, none, "b@y.com", bcryptHash "right", 0⟩ [] rfl rfl (by decide) (by decide)
      (by decide)⟩

theorem delete_forbidden_frame_witness :
    (⟨some (.connected ⟨[⟨1, none, "a@x.com", "h", 0⟩, ⟨2, none, "b@y.com", "h", 0⟩],
        [⟨1, some 1, "n", none, none, some "uploads/x.txt", "n", 5⟩], 3, 2⟩),
      ["x.txt"]⟩ : ServerState).pool =
      some (.connected ⟨[⟨1, none, "a@x.com", "h", 0⟩, ⟨2, none, "b@y.com", "h", 0⟩],
        [⟨1, some 1, "n", none, none, some "uploads/x.txt", "n", 5⟩], 3, 2⟩) ∧
    authMiddleware (some ("Bearer " ++ jwtSign ⟨2, "b@y.com"⟩ JWT_SECRET 0))
      JWT_SECRET 10 = .ok ⟨2, "b@y.com"⟩ ∧
    authMiddleware (some ("Bearer " ++ jwtSign ⟨1, "a@x.com"⟩ JWT_SECRET 0))
      JWT_SECRET 10 = .ok ⟨1, "a@x.com"⟩ ∧
    (⟨[⟨1, none, "a@x.com", "h", 0⟩, ⟨2, none, "b@y.com", "h", 0⟩],
        [⟨1, some 1, "n", none, none, some "uploads/x.txt", "n", 5⟩], 3, 2⟩ : DB).documents.find?
      (fun d => d.id == 1) =
      some ⟨1, some 1, "n", none, none, some "uploads/x.txt", "n", 5⟩ ∧
    (DocRow.mk 1 (some 1) "n" none none (some "uploads/x.txt") "n" 5).user_id =
      some (Claims.mk 1 "a@x.com").id ∧
    (Claims.mk 2 "b@y.com").id ≠ (Claims.mk 1 "a@x.com").id ∧
    (deleteDoc ⟨some (.connected ⟨[⟨1, none, "a@x.com", "h", 0⟩, ⟨2, none, "b@y.com", "h", 0⟩],
          [⟨1, some 1, "n", none, none, some "uploads/x.txt", "n", 5⟩], 3, 2⟩), ["x.txt"]⟩
        JWT_SECRET 10 (some ("Bearer " ++ jwtSign ⟨2, "b@y.com"⟩ JWT_SECRET 0)) 1 true =
      ((403, .err "forbidden"),
        ⟨some (.connected ⟨[⟨1, none, "a@x.com", "h", 0⟩, ⟨2, none, "b@y.com", "h", 0⟩],
          [⟨1, some 1, "n", none, none, some "uploads/x.txt", "n", 5⟩], 3, 2⟩), ["x.txt"]⟩) ∧
    (deleteDoc ⟨some (.connected ⟨[⟨1, none, "a@x.com", "h", 0⟩, ⟨2, none, "b@y.com", "h", 0⟩],
          [⟨1, some 1, "n", none, none, some "uploads/x.txt", "n", 5⟩], 3, 2⟩), ["x.txt"]⟩
        JWT_SECRET 10 (some ("Bearer " ++ jwtSign ⟨1, "a@x.com"⟩ JWT_SECRET 0)) 1 false).1 =
      (200, .okTrue) ∧
    (deleteDoc ⟨some (.connected ⟨[⟨1, none, "a@x.com", "h", 0⟩, ⟨2, none, "b@y.com", "h", 0⟩],
          [⟨1, some 1, "n", none, none, some "uploads/x.txt", "n", 5⟩], 3, 2⟩), ["x.txt"]⟩
        JWT_SECRET 10 (some ("Bearer " ++ jwtSign ⟨1, "a@x.com"⟩ JWT_SECRET 0)) 1 false).2.pool =
      some (.connected { (⟨[⟨1, none, "a@x.com", "h", 0⟩, ⟨2, none, "b@y.com", "h", 0⟩],
          [⟨1, some 1, "n", none, none, some "uploads/x.txt", "n", 5⟩], 3, 2⟩ : DB) with
        documents := (⟨[⟨1, none, "a@x.com", "h", 0⟩, ⟨2, none, "b@y.com", "h", 0⟩],
          [⟨1, some 1, "n", none, none, some "uploads/x.txt", "n", 5⟩], 3, 2⟩ : DB).documents.filter
            (fun d => !(d.id == 1)) })) :=
  ⟨rfl, by decide, by decide, by decide, rfl, by decide,
    delete_forbidden_frame _ _ JWT_SECRET 10 _ _ ⟨2, "b@y.com"⟩ ⟨1, "a@x.com"⟩ 1 true false
      ⟨1, some 1, "n", none, none, some "uploads/x.txt", "n", 5⟩
      rfl (by decide) (by decide) (by decide) rfl (by decide)⟩

theorem delete_null_owner_forbidden_witness :
    authMiddleware (some ("Bearer " ++ jwtSign ⟨1, "a@x.com"⟩ JWT_SECRET 0))
      JWT_SECRET 10 = .ok ⟨1, "a@x.com"⟩ ∧
    (⟨some (.connected ⟨[⟨1, none, "a@x.com", "h", 0⟩],
        [⟨1, none, "n", none, none, some "uploads/x.txt", "n", 5⟩], 2, 2⟩),
      ["x.txt"]⟩ : ServerState).pool =
      some (.connected ⟨[⟨1, none, "a@x.com", "h", 0⟩],
        [⟨1, none, "n", none, none, some "uploads/x.txt", "n", 5⟩], 2, 2⟩) ∧
    (⟨[⟨1, none, "a@x.com", "h", 0⟩],
        [⟨1, none, "n", none, none, some "uploads/x.txt", "n", 5⟩], 2, 2⟩ : DB).documents.find?
      (fun d => d.id == 1) = some ⟨1, none, "n", none, none, some "uploads/x.txt", "n", 5⟩ ∧
    (DocRow.mk 1 none "n" none none (some "uploads/x.txt") "n" 5).user_id = none ∧
    deleteDoc ⟨some (.connected ⟨[⟨1, none, "a@x.com", "h", 0⟩],
        [⟨1, none, "n", none, none, some "uploads/x.txt", "n", 5⟩], 2, 2⟩), ["x.txt"]⟩
      JWT_SECRET 10 (some ("Bearer " ++ jwtSign ⟨1, "a@x.com"⟩ JWT_SECRET 0)) 1 true =
      ((403, .err "forbidden"),
        ⟨some (.connected ⟨[⟨1, none, "a@x.com", "h", 0⟩],
          [⟨1, none, "n", none, none, some "uploads/x.txt", "n", 5⟩], 2, 2⟩), ["x.txt"]⟩) :=
  ⟨by decide, rfl, by decide, rfl,
    delete_null_owner_forbidden _ _ JWT_SECRET 10 _ ⟨1, "a@x.com"⟩ 1 true
      ⟨1, none, "n", none, none, some "uploads/x.txt", "n", 5⟩
      (by decide) rfl (by decide) rfl⟩

theorem token_roundtrip_witness :
    '|' ∉ JWT_SECRET.data ∧ ' ' ∉ JWT_SECRET.data ∧
    (signup ⟨some (.connected ⟨[], [], 1, 1⟩), []⟩ JWT_SECRET 0 none (some "a@x.com") (some "pw") =
        ((200, .signupOk (jwtSign ⟨1, "a@x.com"⟩ JWT_SECRET 0) 1 "a@x.com"),
          ⟨some (.connected ⟨[⟨1, none, "a@x.com", bcryptHash "pw", 0⟩], [], 2, 1⟩), []⟩) ∨
      login ⟨some (.connected ⟨[], [], 1, 1⟩), []⟩ JWT_SECRET 0 none none =
        ((200, .loginOk (jwtSign ⟨1, "a@x.com"⟩ JWT_SECRET 0) 1 "a@x.com" none),
          ⟨some (.connected ⟨[⟨1, none, "a@x.com", bcryptHash "pw", 0⟩], [], 2, 1⟩), []⟩)) ∧
    100 < 0 + 43200 ∧ 0 + 43200 ≤ 43200 ∧
    (authMiddleware (some ("Bearer " ++ jwtSign ⟨1, "a@x.com"⟩ JWT_SECRET 0))
        JWT_SECRET 100 = .ok ⟨1, "a@x.com"⟩ ∧
      authMiddleware (some ("Bearer " ++ jwtSign ⟨1, "a@x.com"⟩ JWT_SECRET 0))
        JWT_SECRET 43200 = .error .invalidToken) :=
  ⟨by decide, by decide, Or.inl (by decide), by decide, by decide,
    token_roundtrip ⟨some (.connected ⟨[], [], 1, 1⟩), []⟩
      ⟨some (.connected ⟨[⟨1, none, "a@x.com", bcryptHash "pw", 0⟩], [], 2, 1⟩), []⟩
      JWT_SECRET 0 100 43200 none (some "a@x.com") (some "pw") none none none
      (jwtSign ⟨1, "a@x.com"⟩ JWT_SECRET 0) 1 "a@x.com"
      (by decide) (by decide) (Or.inl (by decide)) (by decide) (by decide)⟩

theorem degraded_mode_witness :
    (⟨some .broken, []⟩ : ServerState).pool = some .broken ∧
    authMiddleware (some ("Bearer " ++ jwtSign ⟨1, "a@x.com"⟩ JWT_SECRET 0))
      JWT_SECRET 10 = .ok ⟨1, "a@x.com"⟩ ∧
    (initPool false ⟨[], [], 1, 1⟩ = some .broken ∧
    health ⟨some .broken, []⟩ true "connect ECONNREFUSED" =
      (200, .health true false (some "connect ECONNREFUSED")) ∧
    (truthy (some "a@x.com") = true → truthy (some "pw") = true →
      signup ⟨some .broken, []⟩ JWT_SECRET 10 none (some "a@x.com") (some "pw") =
        ((500, .err "internal"), ⟨some .broken, []⟩)) ∧
    (∀ le lp, login ⟨some .broken, []⟩ JWT_SECRET 10 le lp =
      ((500, .err "internal"), ⟨some .broken, []⟩)) ∧
    uploadDoc ⟨some .broken, []⟩ JWT_SECRET 10
        (some ("Bearer " ++ jwtSign ⟨1, "a@x.com"⟩ JWT_SECRET 0)) (some ⟨"r.txt"⟩) 5 7
        none none none =
      ((500, .err "upload failed"),
        { (⟨some .broken, []⟩ : ServerState) with
          blobs := (⟨some .broken, []⟩ : ServerState).blobs ++
            [storedBlobName 5 7 (FileInfo.mk "r.txt").originalname] }) ∧
    mydocs ⟨some .broken, []⟩ JWT_SECRET 10
        (some ("Bearer " ++ jwtSign ⟨1, "a@x.com"⟩ JWT_SECRET 0)) =
      ((500, .err "internal"), ⟨some .broken, []⟩) ∧
    deleteDoc ⟨some .broken, []⟩ JWT_SECRET 10
        (some ("Bearer " ++ jwtSign ⟨1, "a@x.com"⟩ JWT_SECRET 0)) 1 true =
      ((500, .err "internal"), ⟨some .broken, []⟩) ∧
    searchDocs ⟨some .broken, []⟩ none none none = (500, .err "internal")) :=
  ⟨rfl, by decide,
    degraded_mode ⟨[], [], 1, 1⟩ ⟨some .broken, []⟩ JWT_SECRET 10 true
      "connect ECONNREFUSED" none (some "a@x.com") (some "pw")
      (some ("Bearer " ++ jwtSign ⟨1, "a@x.com"⟩ JWT_SECRET 0)) ⟨"r.txt"⟩ 5 7
      none none none 1 true none none none ⟨1, "a@x.com"⟩ rfl (by decide)⟩

theorem signup_contract_witness :
    (⟨some (.connected ⟨[⟨1, none, "a@x.com", "h", 0⟩], [], 2, 1⟩), []⟩ : ServerState).pool =
      some (.connected ⟨[⟨1, none, "a@x.com", "h", 0⟩], [], 2, 1⟩) ∧
    ((truthy (some "new@x.com") = false ∨ truthy (some "pw") = false →
      signup ⟨some (.connected ⟨[⟨1, none, "a@x.com", "h", 0⟩], [], 2, 1⟩), []⟩ JWT_SECRET 7 none
          (some "new@x.com") (some "pw") =
        ((400, .err "email/password required"),
          ⟨some (.connected ⟨[⟨1, none, "a@x.com", "h", 0⟩], [], 2, 1⟩), []⟩)) ∧
    (truthy (some "new@x.com") = true → truthy (some "pw") = true →
      (∃ u ∈ (⟨[⟨1, none, "a@x.com", "h", 0⟩], [], 2, 1⟩ : DB).users,
        mysqlEq u.email ((some "new@x.com").getD "") = true) →
      signup ⟨some (.connected ⟨[⟨1, none, "a@x.com", "h", 0⟩], [], 2, 1⟩), []⟩ JWT_SECRET 7 none
          (some "new@x.com") (some "pw") =
        ((400, .err "User already exists"),
          ⟨some (.connected ⟨[⟨1, none, "a@x.com", "h", 0⟩], [], 2, 1⟩), []⟩)) ∧
    (truthy (some "new@x.com") = true → truthy (some "pw") = true →
      (∀ u ∈ (⟨[⟨1, none, "a@x.com", "h", 0⟩], [], 2, 1⟩ : DB).users,
        mysqlEq u.email ((some "new@x.com").getD "") = false) →
      signup ⟨some (.connected ⟨[⟨1, none, "a@x.com", "h", 0⟩], [], 2, 1⟩), []⟩ JWT_SECRET 7 none
          (some "new@x.com") (some "pw") =
        ((200, .signupOk
            (jwtSign ⟨(⟨[⟨1, none, "a@x.com", "h", 0⟩], [], 2, 1⟩ : DB).nextUserId,
              ((some "new@x.com").getD "")⟩ JWT_SECRET 7)
            (⟨[⟨1, none, "a@x.com", "h", 0⟩], [], 2, 1⟩ : DB).nextUserId
            ((some "new@x.com").getD "")),
          { (⟨some (.connected ⟨[⟨1, none, "a@x.com", "h", 0⟩], [], 2, 1⟩), []⟩ : ServerState) with
            pool := some (.connected { (⟨[⟨1, none, "a@x.com", "h", 0⟩], [], 2, 1⟩ : DB) with
              users := (⟨[⟨1, none, "a@x.com", "h", 0⟩], [], 2, 1⟩ : DB).users ++
                [⟨(⟨[⟨1, none, "a@x.com", "h", 0⟩], [], 2, 1⟩ : DB).nextUserId,
                  if truthy none then none else none,
                  ((some "new@x.com").getD ""), bcryptHash ((some "pw").getD ""), 7⟩],
              nextUserId := (⟨[⟨1, none, "a@x.com", "h", 0⟩], [], 2, 1⟩ : DB).nextUserId + 1 }) }))) :=
  ⟨rfl, signup_contract _ _ JWT_SECRET 7 none (some "new@x.com") (some "pw") rfl⟩

theorem upload_file_path_invariant_witness :
    authMiddleware (some ("Bearer " ++ jwtSign ⟨1, "a@x.com"⟩ JWT_SECRET 0))
      JWT_SECRET 10 = .ok ⟨1, "a@x.com"⟩ ∧
    (⟨some (.connected ⟨[⟨1, none, "a@x.com", "h", 0⟩], [], 2, 1⟩), []⟩ : ServerState).pool =
      some (.connected ⟨[⟨1, none, "a@x.com", "h", 0⟩], [], 2, 1⟩) ∧
    (∃ st' : ServerState,
      uploadDoc ⟨some (.connected ⟨[⟨1, none, "a@x.com", "h", 0⟩], [], 2, 1⟩), []⟩ JWT_SECRET 10
          (some ("Bearer " ++ jwtSign ⟨1, "a@x.com"⟩ JWT_SECRET 0)) (some ⟨"r.txt"⟩) 5 7
          none none none = ((200, .okTrue), st') ∧
      ∃ db' : DB, st'.pool = some (.connected db') ∧
      ∃ row : DocRow,
        db'.documents = (⟨[⟨1, none, "a@x.com", "h", 0⟩], [], 2, 1⟩ : DB).documents ++ [row] ∧
        row.file_path =
          some ("uploads/" ++ storedBlobName 5 7 (FileInfo.mk "r.txt").originalname) ∧
        isAbsolutePath ("uploads/" ++ storedBlobName 5 7 (FileInfo.mk "r.txt").originalname) =
          false ∧
        resolveRel ("uploads/" ++ storedBlobName 5 7 (FileInfo.mk "r.txt").originalname) =
          some (storedBlobName 5 7 (FileInfo.mk "r.txt").originalname) ∧
        storedBlobName 5 7 (FileInfo.mk "r.txt").originalname ∈ st'.blobs) :=
  ⟨by decide, rfl,
    upload_file_path_invariant _ _ JWT_SECRET 10 _ ⟨1, "a@x.com"⟩ ⟨"r.txt"⟩ 5 7
      none none none (by decide) rfl⟩

theorem auth_gate_spec_witness :
    '|' ∉ JWT_SECRET.data ∧ ' ' ∉ JWT_SECRET.data ∧
    (authMiddleware none JWT_SECRET 50000 = .error .missing ∧
    authMiddleware (some "") JWT_SECRET 50000 = .error .missing ∧
    (∀ h : String, h.data ≠ [] → (splitSp h.data).length ≠ 2 →
      authMiddleware (some h) JWT_SECRET 50000 = .error .badAuth) ∧
    (∀ (h : String) s1 tok, h.data ≠ [] → splitSp h.data = [s1, tok] →
      jwtVerify ⟨tok⟩ JWT_SECRET 50000 = none →
      authMiddleware (some h) JWT_SECRET 50000 = .error .invalidToken) ∧
    (∀ (c : Claims) (iat : Nat), iat + 43200 ≤ 50000 →
      authMiddleware (some ("Bearer " ++ jwtSign c JWT_SECRET iat)) JWT_SECRET 50000 =
        .error .invalidToken) ∧
    (∀ (st : ServerState) (hdr : Option String) (id : Nat) (fsOk : Bool) (e : AuthErr),
      authMiddleware hdr JWT_SECRET 50000 = .error e →
      deleteDoc st JWT_SECRET 50000 hdr id fsOk = ((401, .err (authErrMsg e)), st)) ∧
    (∀ (st : ServerState) (hdr : Option String) (e : AuthErr),
      authMiddleware hdr JWT_SECRET 50000 = .error e →
      mydocs st JWT_SECRET 50000 hdr = ((401, .err (authErrMsg e)), st)) ∧
    (∀ (st : ServerState) (hdr : Option String) (file : Option FileInfo)
      (ts rand : Nat) (dn dt dd : Option String) (e : AuthErr),
      authMiddleware hdr JWT_SECRET 50000 = .error e →
      uploadDoc st JWT_SECRET 50000 hdr file ts rand dn dt dd =
        ((401, .err (authErrMsg e)), st))) :=
  ⟨by decide, by decide, auth_gate_spec JWT_SECRET 50000 (by decide) (by decide)⟩

theorem search_spec_witness :
    (⟨some (.connected ⟨[⟨1, none, "a@x.com", "h", 0⟩],
        [⟨1, some 1, "report", some "PDF", none, some "uploads/x.txt", "r.txt", 5⟩], 2, 2⟩),
      ["x.txt"]⟩ : ServerState).pool =
      some (.connected ⟨[⟨1, none, "a@x.com", "h", 0⟩],
        [⟨1, some 1, "report", some "PDF", none, some "uploads/x.txt", "r.txt", 5⟩], 2, 2⟩) ∧
    (∀ c ∈ ((some "rep").getD "").data, c ≠ '%' ∧ c ≠ '_' ∧ c ≠ '\\') ∧
    (∃ rows : List SearchRow,
      searchDocs ⟨some (.connected ⟨[⟨1, none, "a@x.com", "h", 0⟩],
          [⟨1, some 1, "report", some "PDF", none, some "uploads/x.txt", "r.txt", 5⟩], 2, 2⟩),
          ["x.txt"]⟩ (some "rep") none none = (200, .found rows) ∧
      rows.length ≤ 200 ∧
      sortedDescB (rows.map (fun r => r.doc)) = true ∧
      (∀ r ∈ rows, specAmendedMatches (some "rep") none none r.doc = true ∧
        r.uploaded_by = uploaderEmail ⟨[⟨1, none, "a@x.com", "h", 0⟩],
          [⟨1, some 1, "report", some "PDF", none, some "uploads/x.txt", "r.txt", 5⟩], 2, 2⟩
          r.doc) ∧
      (((⟨[⟨1, none, "a@x.com", "h", 0⟩],
          [⟨1, some 1, "report", some "PDF", none, some "uploads/x.txt", "r.txt", 5⟩], 2, 2⟩ :
          DB).documents.filter (searchWhere (some "rep") none none)).length ≤ 200 →
        ∀ d ∈ (⟨[⟨1, none, "a@x.com", "h", 0⟩],
          [⟨1, some 1, "report", some "PDF", none, some "uploads/x.txt", "r.txt", 5⟩], 2, 2⟩ :
          DB).documents,
          specAmendedMatches (some "rep") none none d = true →
          (⟨d, uploaderEmail ⟨[⟨1, none, "a@x.com", "h", 0⟩],
            [⟨1, some 1, "report", some "PDF", none, some "uploads/x.txt", "r.txt", 5⟩], 2, 2⟩
            d⟩ : SearchRow) ∈ rows) ∧
      (∀ d : DocRow, searchWhere (some "rep") none none d =
        specAmendedMatches (some "rep") none none d)) :=
  ⟨rfl, by decide,
    search_spec _ _ (some "rep") none none rfl (by decide)⟩

end RegsInsight
